import Mathlib

/-!
# Single-neuron ReLU trainers (`nn2/nn.c` and `nn3/nn.c`)

A shallow embedding of the two C programs.  The definitions are written over any type `K` that
has the operations the programs use on a `double` (sum, difference, product, unary minus,
decimal constants, comparisons), with no law assumed of them.  The theorems in exact arithmetic
take `K` a linearly ordered field (`ℚ` for evaluation, `ℝ` for the statements over all reals);
`Double` is a model of the doubles with overflow, on which the order of the products matters.
The mutable locals `w1, w2, (w3,) b` of `main` are an explicit parameter record threaded
through the training loop.  Every `printf` call is one record of the output trace, carrying the
values it formats; the C library function `atof` is a parameter of `main`.
-/

namespace NN2

/-- The locals `w1`, `w2`, `b` of `main` in `nn2/nn.c`. -/
structure Params (K : Type) where
  w1 : K
  w2 : K
  b : K
deriving DecidableEq, Repr

/-- One record per `printf` call of `nn2/nn.c`, with the values the call formats. -/
inductive Line (K : Type) where
  /-- Prints `Usage: %s <input1> <input2>`. -/
  | usage (prog : Option String)
  /-- Prints `Example: %s 1 1`. -/
  | usageExample (prog : Option String)
  /-- Prints `=== Neural Network Training (AND Logic) ===`. -/
  | header
  /-- Prints `Input: [%.0f, %.0f]`. -/
  | input (x1 x2 : K)
  /-- Prints `Target output: %.0f`. -/
  | target (t : K)
  /-- Prints `Initial weights: w1=%.3f, w2=%.3f, bias=%.3f`. -/
  | initial (w1 w2 b : K)
  /-- Prints `BEFORE training: z = %.3f → output = %.3f`. -/
  | before (z prediction : K)
  /-- Prints `--- Training Start (Backpropagation) ---`. -/
  | trainingStart
  /-- Prints `Epoch %2d: DEAD NEURON (z=%.3f <=0), no update!`. -/
  | dead (epoch : Nat) (z : K)
  /-- Prints `Epoch %2d: output=%.3f, error=%.3f → w1=%.3f, w2=%.3f, b=%.3f`. -/
  | update (epoch : Nat) (output error w1 w2 b : K)
  /-- Prints `--- Training Complete ---`. -/
  | complete
  /-- Prints `Final z = %.3f → Final output = %.3f`. -/
  | final (z final_output : K)
  /-- Prints `Final decision: %s` with `YES` (`true`) or `NO` (`false`). -/
  | decision (yes : Bool)
deriving DecidableEq, Repr

variable {K : Type} [Zero K] [Add K] [Sub K] [Mul K] [Neg K] [OfScientific K] [LT K] [LE K]
  [DecidableEq K] [DecidableRel (fun a b : K => a < b)] [DecidableRel (fun a b : K => a ≤ b)]

/-- The function `relu`: `return (z > 0) ? z : 0;`. -/
def relu (z : K) : K := if z > 0 then z else 0

/-- The function `relu_derivative`: `return (z > 0) ? 1.0 : 0.0;`. -/
def relu_derivative (z : K) : K := if z > 0 then 1.0 else 0.0

/-- The local `double learning_rate = 0.5;` of `main`. -/
def learning_rate : K := 0.5

/-- The local `double target = (x1 == 1.0 && x2 == 1.0) ? 1.0 : 0.0;` of `main`. -/
def target (x1 x2 : K) : K := if x1 = 1.0 ∧ x2 = 1.0 then 1.0 else 0.0

/-- The initial values `w1 = 0.3`, `w2 = 0.4`, `b = -0.5`. -/
def init : Params K := { w1 := 0.3, w2 := 0.4, b := -0.5 }

/-- The linear combination `w1 * inputs[0] + w2 * inputs[1] + b`. -/
def preact (x1 x2 : K) (s : Params K) : K := s.w1 * x1 + s.w2 * x2 + s.b

/-- The body of the training loop: one epoch from the parameters `s`, giving the parameters
left by the epoch and the line it prints.  The `continue` of the dead-neuron branch is the
early result. -/
def epoch (x1 x2 tgt : K) (ep : Nat) (s : Params K) : Params K × Line K :=
  let z := preact x1 x2 s
  let output := relu z
  let error := tgt - output
  if z ≤ 0 ∧ tgt > 0 then
    (s, Line.dead ep z)
  else
    let d_output := error
    let d_z := d_output * relu_derivative z
    let d_w1 := d_z * x1
    let d_w2 := d_z * x2
    let d_b := d_z
    let w1 := s.w1 + learning_rate * d_w1
    let w2 := s.w2 + learning_rate * d_w2
    let b := s.b + learning_rate * d_b
    ({ w1 := w1, w2 := w2, b := b }, Line.update ep output error w1 w2 b)

/-- The loop `for (int epoch = 1; epoch <= 10; epoch++)`, entered with the counter at `ep` and
the parameters `s`: the parameters at loop exit and the lines printed on the way. -/
def loop (x1 x2 tgt : K) (ep : Nat) (s : Params K) : Params K × List (Line K) :=
  if ep ≤ 10 then
    let r := epoch x1 x2 tgt ep s
    let rest := loop x1 x2 tgt (ep + 1) r.1
    (rest.1, r.2 :: rest.2)
  else
    (s, [])
termination_by 11 - ep

/-- Step 7 of `main`, the final forward pass after training, on the parameters `s` left by the
loop: the three lines it prints. -/
def finalPass (x1 x2 : K) (s : Params K) : List (Line K) :=
  let z := preact x1 x2 s
  let final_output := relu z
  [Line.complete, Line.final z final_output, Line.decision (decide (final_output > 0))]

/-- The part of `main` after the argument-count check, on the parsed inputs: steps 2 to 7. -/
def train (x1 x2 : K) : List (Line K) :=
  let tgt := target x1 x2
  let s0 : Params K := init
  let z := preact x1 x2 s0
  let prediction := relu z
  let r := loop x1 x2 tgt 1 s0
  [Line.header, Line.input x1 x2, Line.target tgt, Line.initial s0.w1 s0.w2 s0.b,
    Line.before z prediction, Line.trainingStart]
    ++ r.2
    ++ finalPass x1 x2 r.1

/-- The function `int main(int argc, char *argv[])` of `nn2/nn.c`: `argv` is the whole argument
vector (`argc = argv.length`, program name first); the result is the exit code and the output.
The test `argc != 3` fails exactly on a three-element vector. -/
def main (atof : String → K) (argv : List String) : Int × List (Line K) :=
  match argv with
  | [_, a1, a2] => (0, train (atof a1) (atof a2))
  | _ => (1, [Line.usage argv.head?, Line.usageExample argv.head?])

/-- The parameters held after the first `n` epochs of the training loop, when the loop is
entered with `s0`: the parameters at the start of epoch `n + 1`. -/
def after (x1 x2 tgt : K) (s0 : Params K) : Nat → Params K
  | 0 => s0
  | n + 1 => (epoch x1 x2 tgt (n + 1) (after x1 x2 tgt s0 n)).1

/-- Whether a line is one of the two per-epoch records (dead neuron or update). -/
def Line.isEpochRecord : Line K → Bool
  | Line.dead _ _ => true
  | Line.update _ _ _ _ _ _ => true
  | _ => false

end NN2

namespace NN2

variable {K : Type} [LinearOrderedField K]

/-- The update recurrence in the words of the specification, to be compared with `epoch`:
`w_i += 0.5 * error * relu'(z) * x_i` and `b += 0.5 * error * relu'(z)`, with
`z = w1 * x1 + w2 * x2 + b`, `error = target - max(z, 0)` and `relu'(z)` equal to 1 for `z > 0`
and to 0 otherwise. -/
def specUpdate (x1 x2 tgt : K) (s : Params K) : Params K :=
  let z := s.w1 * x1 + s.w2 * x2 + s.b
  let error := tgt - max z 0
  let slope : K := if z > 0 then 1 else 0
  { w1 := s.w1 + 0.5 * error * slope * x1
    w2 := s.w2 + 0.5 * error * slope * x2
    b := s.b + 0.5 * error * slope }

end NN2

namespace NN3

/-- The locals `w1`, `w2`, `w3`, `b` of `main` in `nn3/nn.c`. -/
structure Params (K : Type) where
  w1 : K
  w2 : K
  w3 : K
  b : K
deriving DecidableEq, Repr

/-- One record per `printf` call of `nn3/nn.c`, with the values the call formats. -/
inductive Line (K : Type) where
  /-- Prints `Usage: %s <key1> <key2> <key3>`. -/
  | usage (prog : Option String)
  /-- Prints `Example: %s 1 1 1`. -/
  | usageExample (prog : Option String)
  /-- Prints `=== 3-Key Safe Brain (AND Logic) ===`. -/
  | header
  /-- Prints `Keys: [%.0f, %.0f, %.0f]`. -/
  | keys (x1 x2 x3 : K)
  /-- Prints `Target: %.0f (1 = all keys in)`. -/
  | target (t : K)
  /-- Prints `Initial: w1=%.3f, w2=%.3f, w3=%.3f, b=%.3f`. -/
  | initial (w1 w2 w3 b : K)
  /-- Prints `BEFORE: z = %.3f → output = %.3f`. -/
  | before (z output : K)
  /-- Prints `--- Training (Backpropagation) ---`. -/
  | trainingStart
  /-- Prints `Epoch %2d: DEAD (z=%.3f), no update`. -/
  | dead (epoch : Nat) (z : K)
  /-- Prints `Epoch %2d: out=%.3f, err=%.3f → w1=%.3f, w2=%.3f, w3=%.3f, b=%.3f`. -/
  | update (epoch : Nat) (output error w1 w2 w3 b : K)
  /-- Prints `--- DONE ---`. -/
  | done
  /-- Prints `Final z = %.3f → output = %.3f`. -/
  | final (z final_output : K)
  /-- Prints `SAFE: %s` with `OPENED!` (`true`) or `CLOSED` (`false`). -/
  | safe (opened : Bool)
deriving DecidableEq, Repr

variable {K : Type} [Zero K] [Add K] [Sub K] [Mul K] [Neg K] [OfScientific K] [LT K] [LE K]
  [DecidableEq K] [DecidableRel (fun a b : K => a < b)] [DecidableRel (fun a b : K => a ≤ b)]

/-- The function `relu`: `return (z > 0) ? z : 0.0;`. -/
def relu (z : K) : K := if z > 0 then z else 0.0

/-- The function `relu_derivative`: `return (z > 0) ? 1.0 : 0.0;`. -/
def relu_derivative (z : K) : K := if z > 0 then 1.0 else 0.0

/-- The local `double learning_rate = 0.5;` of `main`. -/
def learning_rate : K := 0.5

/-- The local `double target = (x1 == 1.0 && x2 == 1.0 && x3 == 1.0) ? 1.0 : 0.0;`. -/
def target (x1 x2 x3 : K) : K := if x1 = 1.0 ∧ x2 = 1.0 ∧ x3 = 1.0 then 1.0 else 0.0

/-- The initial values `w1 = 0.2`, `w2 = 0.3`, `w3 = 0.4`, `b = -0.8`. -/
def init : Params K := { w1 := 0.2, w2 := 0.3, w3 := 0.4, b := -0.8 }

/-- The linear combination `w1*inputs[0] + w2*inputs[1] + w3*inputs[2] + b`. -/
def preact (x1 x2 x3 : K) (s : Params K) : K := s.w1 * x1 + s.w2 * x2 + s.w3 * x3 + s.b

/-- The body of the training loop: one epoch from the parameters `s`, giving the parameters
left by the epoch and the line it prints.  The `continue` of the dead branch is the early
result. -/
def epoch (x1 x2 x3 tgt : K) (ep : Nat) (s : Params K) : Params K × Line K :=
  let z := preact x1 x2 x3 s
  let output := relu z
  let error := tgt - output
  if z ≤ 0 ∧ tgt > 0 then
    (s, Line.dead ep z)
  else
    let d_z := error * relu_derivative z
    let d_w1 := d_z * x1
    let d_w2 := d_z * x2
    let d_w3 := d_z * x3
    let d_b := d_z
    let w1 := s.w1 + learning_rate * d_w1
    let w2 := s.w2 + learning_rate * d_w2
    let w3 := s.w3 + learning_rate * d_w3
    let b := s.b + learning_rate * d_b
    ({ w1 := w1, w2 := w2, w3 := w3, b := b }, Line.update ep output error w1 w2 w3 b)

/-- The loop `for (int epoch = 1; epoch <= 15; epoch++)`, entered with the counter at `ep` and
the parameters `s`: the parameters at loop exit and the lines printed on the way. -/
def loop (x1 x2 x3 tgt : K) (ep : Nat) (s : Params K) : Params K × List (Line K) :=
  if ep ≤ 15 then
    let r := epoch x1 x2 x3 tgt ep s
    let rest := loop x1 x2 x3 tgt (ep + 1) r.1
    (rest.1, r.2 :: rest.2)
  else
    (s, [])
termination_by 16 - ep

/-- Step 7 of `main`, the final prediction after training, on the parameters `s` left by the
loop: the three lines it prints. -/
def finalPass (x1 x2 x3 : K) (s : Params K) : List (Line K) :=
  let z := preact x1 x2 x3 s
  let final_output := relu z
  [Line.done, Line.final z final_output, Line.safe (decide (final_output > 0))]

/-- The part of `main` after the argument-count check, on the parsed inputs: steps 2 to 7. -/
def train (x1 x2 x3 : K) : List (Line K) :=
  let tgt := target x1 x2 x3
  let s0 : Params K := init
  let z := preact x1 x2 x3 s0
  let output := relu z
  let r := loop x1 x2 x3 tgt 1 s0
  [Line.header, Line.keys x1 x2 x3, Line.target tgt, Line.initial s0.w1 s0.w2 s0.w3 s0.b,
    Line.before z output, Line.trainingStart]
    ++ r.2
    ++ finalPass x1 x2 x3 r.1

/-- The function `int main(int argc, char *argv[])` of `nn3/nn.c`: `argv` is the whole argument
vector (`argc = argv.length`, program name first); the result is the exit code and the output.
The test `argc != 4` fails exactly on a four-element vector. -/
def main (atof : String → K) (argv : List String) : Int × List (Line K) :=
  match argv with
  | [_, a1, a2, a3] => (0, train (atof a1) (atof a2) (atof a3))
  | _ => (1, [Line.usage argv.head?, Line.usageExample argv.head?])

/-- The parameters held after the first `n` epochs of the training loop, when the loop is
entered with `s0`: the parameters at the start of epoch `n + 1`. -/
def after (x1 x2 x3 tgt : K) (s0 : Params K) : Nat → Params K
  | 0 => s0
  | n + 1 => (epoch x1 x2 x3 tgt (n + 1) (after x1 x2 x3 tgt s0 n)).1

/-- Whether a line is one of the two per-epoch records (dead neuron or update). -/
def Line.isEpochRecord : Line K → Bool
  | Line.dead _ _ => true
  | Line.update _ _ _ _ _ _ _ => true
  | _ => false

end NN3

/-- A value `x` that the format `%.3f` prints as the three-decimal number `d`: `x` lies strictly
within half a thousandth of `d`, so `d` is the nearest three-decimal number whatever the rule
for ties. -/
def printsAs3 {K : Type} [LinearOrderedField K] (x d : K) : Prop := |x - d| < 0.0005

instance {K : Type} [LinearOrderedField K] (x d : K) : Decidable (printsAs3 x d) := by
  unfold printsAs3
  infer_instance

/-! ## Doubles with overflow -/

/-- A C `double` as far as overflow goes, after IEEE 754 binary64.  A finite value is kept
exact (rounding is not modelled); the other values are the two infinities and NaN.  It is used
only to evaluate the programs where a product overflows; the laws of exact arithmetic do not
hold for it. -/
inductive Double where
  /-- A finite value. -/
  | fin (q : ℚ)
  /-- Positive infinity. -/
  | pinf
  /-- Negative infinity. -/
  | ninf
  /-- Not a number. -/
  | nan
deriving DecidableEq

namespace Double

/-- The overflow threshold of IEEE 754 binary64: a result of magnitude `2 ^ 1024` or more is
not representable and becomes an infinity. -/
def huge : ℚ := 2 ^ 1024

/-- The double for an exact result `q`: an infinity when `q` overflows, `q` otherwise. -/
def ofExact (q : ℚ) : Double :=
  if huge ≤ q then pinf else if q ≤ -huge then ninf else fin q

/-- Unary minus. -/
def neg : Double → Double
  | fin q => fin (-q)
  | pinf => ninf
  | ninf => pinf
  | nan => nan

/-- Addition: exact on finite values up to overflow; opposite infinities give NaN. -/
def add : Double → Double → Double
  | fin a, fin b => ofExact (a + b)
  | nan, _ => nan
  | _, nan => nan
  | pinf, ninf => nan
  | ninf, pinf => nan
  | pinf, _ => pinf
  | _, pinf => pinf
  | ninf, _ => ninf
  | _, ninf => ninf

/-- Subtraction, as the sum with the negated operand. -/
def sub (a b : Double) : Double := add a (neg b)

/-- The product of an infinity (the positive one when `pos`) with the finite value `q`. -/
def infTimes (pos : Bool) (q : ℚ) : Double :=
  if q = 0 then nan
  else if 0 < q then (if pos then pinf else ninf)
  else (if pos then ninf else pinf)

/-- Multiplication: exact on finite values up to overflow; zero times an infinity is NaN. -/
def mul : Double → Double → Double
  | fin a, fin b => ofExact (a * b)
  | nan, _ => nan
  | _, nan => nan
  | pinf, fin b => infTimes true b
  | ninf, fin b => infTimes false b
  | fin a, pinf => infTimes true a
  | fin a, ninf => infTimes false a
  | pinf, pinf => pinf
  | ninf, ninf => pinf
  | pinf, ninf => ninf
  | ninf, pinf => ninf

/-- The comparison `a < b`: false whenever an operand is NaN. -/
def blt : Double → Double → Bool
  | fin a, fin b => decide (a < b)
  | nan, _ => false
  | _, nan => false
  | ninf, ninf => false
  | ninf, _ => true
  | _, ninf => false
  | pinf, _ => false
  | _, pinf => true

/-- The comparison `a <= b`: false whenever an operand is NaN. -/
def ble : Double → Double → Bool
  | fin a, fin b => decide (a ≤ b)
  | nan, _ => false
  | _, nan => false
  | ninf, _ => true
  | _, pinf => true
  | pinf, _ => false
  | _, ninf => false

instance : Zero Double := ⟨fin 0⟩

instance : Add Double := ⟨add⟩

instance : Sub Double := ⟨sub⟩

instance : Mul Double := ⟨mul⟩

instance : Neg Double := ⟨neg⟩

instance : OfScientific Double := ⟨fun m s e => ofExact (OfScientific.ofScientific m s e)⟩

instance : LT Double := ⟨fun a b => blt a b = true⟩

instance : LE Double := ⟨fun a b => ble a b = true⟩

instance : DecidableRel (fun a b : Double => a < b) :=
  fun a b => inferInstanceAs (Decidable (blt a b = true))

instance : DecidableRel (fun a b : Double => a ≤ b) :=
  fun a b => inferInstanceAs (Decidable (ble a b = true))

end Double

/-! ## The two-input trainer: unfolding the loop -/

namespace NN2

variable {K : Type} [LinearOrderedField K]

theorem relu_of_pos {z : K} (h : 0 < z) : relu z = z := by
  simp [relu, h]

theorem relu_of_nonpos {z : K} (h : z ≤ 0) : relu z = 0 := by
  simp [relu, not_lt.mpr h]

theorem relu_pos_iff (z : K) : 0 < relu z ↔ 0 < z := by
  by_cases h : 0 < z
  · simp [relu, h]
  · simp [relu, h]

theorem relu_derivative_of_pos {z : K} (h : 0 < z) : relu_derivative z = 1 := by
  norm_num [relu_derivative, h]

theorem relu_derivative_of_nonpos {z : K} (h : z ≤ 0) : relu_derivative z = 0 := by
  norm_num [relu_derivative, not_lt.mpr h]

/-- One turn of the loop while the counter is at most 10. -/
theorem loop_step (x1 x2 tgt : K) (ep : Nat) (s : Params K) (h : ep ≤ 10) :
    loop x1 x2 tgt ep s =
      ((loop x1 x2 tgt (ep + 1) (epoch x1 x2 tgt ep s).1).1,
        (epoch x1 x2 tgt ep s).2 :: (loop x1 x2 tgt (ep + 1) (epoch x1 x2 tgt ep s).1).2) := by
  rw [loop, if_pos h]

/-- The loop is left once the counter exceeds 10. -/
theorem loop_exit (x1 x2 tgt : K) (ep : Nat) (s : Params K) (h : 10 < ep) :
    loop x1 x2 tgt ep s = (s, []) := by
  rw [loop, if_neg (by omega)]

/-- The loop entered at counter 1 runs the epochs 1 to `n` and then continues from counter
`n + 1` with the parameters `after n`. -/
theorem loop_split (x1 x2 tgt : K) (s0 : Params K) (n : Nat) (hn : n ≤ 10) :
    loop x1 x2 tgt 1 s0 =
      ((loop x1 x2 tgt (n + 1) (after x1 x2 tgt s0 n)).1,
        (List.range n).map (fun i => (epoch x1 x2 tgt (i + 1) (after x1 x2 tgt s0 i)).2)
          ++ (loop x1 x2 tgt (n + 1) (after x1 x2 tgt s0 n)).2) := by
  induction n with
  | zero => simp [after]
  | succ n ih =>
    rw [ih (by omega), loop_step x1 x2 tgt (n + 1) _ (by omega)]
    simp [after, List.range_succ]

/-- The whole loop in terms of `after`: ten epochs, one line each. -/
theorem loop_eq_after (x1 x2 tgt : K) (s0 : Params K) :
    loop x1 x2 tgt 1 s0 =
      (after x1 x2 tgt s0 10,
        (List.range 10).map (fun i => (epoch x1 x2 tgt (i + 1) (after x1 x2 tgt s0 i)).2)) := by
  rw [loop_split x1 x2 tgt s0 10 (le_refl 10), loop_exit x1 x2 tgt 11 _ (by omega)]
  simp

/-- An epoch whose pre-activation is not positive leaves the parameters as they are, whatever
the target: either the dead-neuron branch is taken or the gradient is zero. -/
theorem epoch_params_of_nonpos (x1 x2 tgt : K) (ep : Nat) (s : Params K)
    (hz : preact x1 x2 s ≤ 0) : (epoch x1 x2 tgt ep s).1 = s := by
  unfold epoch
  by_cases ht : tgt > 0
  · simp [hz, ht]
  · simp [hz, ht, relu_derivative_of_nonpos hz]

/-- The dead-neuron branch. -/
theorem epoch_dead (x1 x2 tgt : K) (ep : Nat) (s : Params K)
    (hz : preact x1 x2 s ≤ 0) (ht : tgt > 0) :
    epoch x1 x2 tgt ep s = (s, Line.dead ep (preact x1 x2 s)) := by
  simp [epoch, hz, ht]

/-- Once the pre-activation is not positive, `after` is constant. -/
theorem after_stuck (x1 x2 tgt : K) (s0 : Params K) (n : Nat)
    (hz : preact x1 x2 (after x1 x2 tgt s0 n) ≤ 0) (m : Nat) (hm : n ≤ m) :
    after x1 x2 tgt s0 m = after x1 x2 tgt s0 n := by
  induction m with
  | zero =>
    have : n = 0 := by omega
    subst this
    rfl
  | succ m ih =>
    by_cases h : n = m + 1
    · subst h
      rfl
    · have h1 := ih (by omega)
      show (epoch x1 x2 tgt (m + 1) (after x1 x2 tgt s0 m)).1 = _
      rw [h1]
      exact epoch_params_of_nonpos x1 x2 tgt (m + 1) _ hz

/-- The line of an epoch is a dead-neuron record or an update record whose output and error
add up to the target. -/
theorem epoch_line (x1 x2 tgt : K) (ep : Nat) (s : Params K) :
    ((epoch x1 x2 tgt ep s).2 = Line.dead ep (preact x1 x2 s)
        ∧ preact x1 x2 s ≤ 0 ∧ tgt > 0) ∨
      (∃ w1 w2 b, (epoch x1 x2 tgt ep s).2
          = Line.update ep (relu (preact x1 x2 s)) (tgt - relu (preact x1 x2 s)) w1 w2 b
        ∧ (epoch x1 x2 tgt ep s).1 = ⟨w1, w2, b⟩) := by
  unfold epoch
  by_cases h : preact x1 x2 s ≤ 0 ∧ tgt > 0
  · left
    simp [h]
  · right
    simp only [if_neg h]
    exact ⟨_, _, _, rfl, rfl⟩

/-- Every line printed by the loop, entered at any counter, comes from one epoch. -/
theorem loop_lines (x1 x2 tgt : K) (n : Nat) :
    ∀ (ep : Nat) (s : Params K), ep + n = 11 → ∀ l ∈ (loop x1 x2 tgt ep s).2,
      ∃ e s', ep ≤ e ∧ e ≤ 10 ∧ l = (epoch x1 x2 tgt e s').2 := by
  induction n with
  | zero =>
    intro ep s h l hl
    rw [loop_exit x1 x2 tgt ep s (by omega)] at hl
    simp at hl
  | succ n ih =>
    intro ep s h l hl
    rw [loop_step x1 x2 tgt ep s (by omega)] at hl
    rcases List.mem_cons.mp hl with rfl | hl
    · exact ⟨ep, s, le_refl _, by omega, rfl⟩
    · obtain ⟨e, s', h1, h2, h3⟩ := ih (ep + 1) _ (by omega) l hl
      exact ⟨e, s', by omega, h2, h3⟩

end NN2

/-! ## The two-input trainer on the four binary inputs -/

namespace NN2

variable {K : Type} [LinearOrderedField K]

/-- The whole output for the inputs `1 1`. -/
theorem train_one_one :
    train (1 : K) 1 =
      [Line.header, Line.input 1 1, Line.target 1, Line.initial 0.3 0.4 (-0.5),
        Line.before 0.2 0.2, Line.trainingStart,
        Line.update 1 0.2 0.8 0.7 0.8 (-0.1),
        Line.update 2 1.4 (-0.4) 0.5 0.6 (-0.3),
        Line.update 3 0.8 0.2 0.6 0.7 (-0.2),
        Line.update 4 1.1 (-0.1) 0.55 0.65 (-0.25),
        Line.update 5 0.95 0.05 0.575 0.675 (-0.225),
        Line.update 6 1.025 (-0.025) 0.5625 0.6625 (-0.2375),
        Line.update 7 0.9875 0.0125 0.56875 0.66875 (-0.23125),
        Line.update 8 1.00625 (-0.00625) 0.565625 0.665625 (-0.234375),
        Line.update 9 0.996875 0.003125 0.5671875 0.6671875 (-0.2328125),
        Line.update 10 1.0015625 (-0.0015625) 0.56640625 0.66640625 (-0.23359375),
        Line.complete, Line.final 0.99921875 0.99921875, Line.decision true] := by
  norm_num [train, finalPass, target, loop_step, loop_exit, epoch, preact, relu,
    relu_derivative, learning_rate, init]

/-- The whole output when the target is 0 and the initial pre-activation is not positive:
every epoch is an update record with output 0 and error 0 that leaves the initial
parameters, and the decision is negative. -/
theorem train_of_target_zero (x1 x2 : K) (ht : target x1 x2 = 0)
    (hz : preact x1 x2 init ≤ 0) :
    train x1 x2 =
      [Line.header, Line.input x1 x2, Line.target 0, Line.initial 0.3 0.4 (-0.5),
        Line.before (preact x1 x2 init) 0, Line.trainingStart]
      ++ (List.range 10).map (fun i => Line.update (i + 1) 0 0 0.3 0.4 (-0.5))
      ++ [Line.complete, Line.final (preact x1 x2 init) 0, Line.decision false] := by
  have hstep : ∀ ep : Nat, epoch x1 x2 0 ep init = (init, Line.update ep 0 0 0.3 0.4 (-0.5)) := by
    intro ep
    unfold epoch
    rw [if_neg (by simp)]
    simp only [relu_of_nonpos hz, relu_derivative_of_nonpos hz]
    simp [init]
  have hafter : ∀ n : Nat, after x1 x2 0 init n = init := by
    intro n
    induction n with
    | zero => rfl
    | succ n ih => rw [after, ih, hstep]
  simp only [train, finalPass, ht, loop_eq_after, hafter, hstep, relu_of_nonpos hz]
  simp [init]

/-- The end of the output when the target is 0 and the initial pre-activation is not
positive. -/
theorem train_end_of_target_zero (x1 x2 : K) (ht : target x1 x2 = 0)
    (hz : preact x1 x2 init ≤ 0) :
    [Line.final (preact x1 x2 init) 0, Line.decision false] <:+ train x1 x2 := by
  rw [train_of_target_zero x1 x2 ht hz]
  exact (List.suffix_cons _ _).trans (List.suffix_append _ _)

end NN2

/-! ## The three-input trainer: unfolding the loop -/

namespace NN3

variable {K : Type} [LinearOrderedField K]

theorem relu_of_pos_B {z : K} (h : 0 < z) : relu z = z := by
  simp [relu, h]

theorem relu_of_nonpos_B {z : K} (h : z ≤ 0) : relu z = 0 := by
  norm_num [relu, not_lt.mpr h]

theorem relu_pos_iff_B (z : K) : 0 < relu z ↔ 0 < z := by
  by_cases h : 0 < z
  · simp [relu, h]
  · norm_num [relu, h]

theorem relu_derivative_of_pos_B {z : K} (h : 0 < z) : relu_derivative z = 1 := by
  norm_num [relu_derivative, h]

theorem relu_derivative_of_nonpos_B {z : K} (h : z ≤ 0) : relu_derivative z = 0 := by
  norm_num [relu_derivative, not_lt.mpr h]

/-- One turn of the loop while the counter is at most 15. -/
theorem loop_step_B (x1 x2 x3 tgt : K) (ep : Nat) (s : Params K) (h : ep ≤ 15) :
    loop x1 x2 x3 tgt ep s =
      ((loop x1 x2 x3 tgt (ep + 1) (epoch x1 x2 x3 tgt ep s).1).1,
        (epoch x1 x2 x3 tgt ep s).2
          :: (loop x1 x2 x3 tgt (ep + 1) (epoch x1 x2 x3 tgt ep s).1).2) := by
  rw [loop, if_pos h]

/-- The loop is left once the counter exceeds 15. -/
theorem loop_exit_B (x1 x2 x3 tgt : K) (ep : Nat) (s : Params K) (h : 15 < ep) :
    loop x1 x2 x3 tgt ep s = (s, []) := by
  rw [loop, if_neg (by omega)]

/-- The loop entered at counter 1 runs the epochs 1 to `n` and then continues from counter
`n + 1` with the parameters `after n`. -/
theorem loop_split_B (x1 x2 x3 tgt : K) (s0 : Params K) (n : Nat) (hn : n ≤ 15) :
    loop x1 x2 x3 tgt 1 s0 =
      ((loop x1 x2 x3 tgt (n + 1) (after x1 x2 x3 tgt s0 n)).1,
        (List.range n).map (fun i => (epoch x1 x2 x3 tgt (i + 1) (after x1 x2 x3 tgt s0 i)).2)
          ++ (loop x1 x2 x3 tgt (n + 1) (after x1 x2 x3 tgt s0 n)).2) := by
  induction n with
  | zero => simp [after]
  | succ n ih =>
    rw [ih (by omega), loop_step_B x1 x2 x3 tgt (n + 1) _ (by omega)]
    simp [after, List.range_succ]

/-- The whole loop in terms of `after`: fifteen epochs, one line each. -/
theorem loop_eq_after_B (x1 x2 x3 tgt : K) (s0 : Params K) :
    loop x1 x2 x3 tgt 1 s0 =
      (after x1 x2 x3 tgt s0 15,
        (List.range 15).map
          (fun i => (epoch x1 x2 x3 tgt (i + 1) (after x1 x2 x3 tgt s0 i)).2)) := by
  rw [loop_split_B x1 x2 x3 tgt s0 15 (le_refl 15), loop_exit_B x1 x2 x3 tgt 16 _ (by omega)]
  simp

/-- An epoch whose pre-activation is not positive leaves the parameters as they are, whatever
the target: either the dead branch is taken or the gradient is zero. -/
theorem epoch_params_of_nonpos_B (x1 x2 x3 tgt : K) (ep : Nat) (s : Params K)
    (hz : preact x1 x2 x3 s ≤ 0) : (epoch x1 x2 x3 tgt ep s).1 = s := by
  unfold epoch
  by_cases ht : tgt > 0
  · simp [hz, ht]
  · simp [hz, ht, relu_derivative_of_nonpos_B hz]

/-- The dead branch. -/
theorem epoch_dead_B (x1 x2 x3 tgt : K) (ep : Nat) (s : Params K)
    (hz : preact x1 x2 x3 s ≤ 0) (ht : tgt > 0) :
    epoch x1 x2 x3 tgt ep s = (s, Line.dead ep (preact x1 x2 x3 s)) := by
  simp [epoch, hz, ht]

/-- Once the pre-activation is not positive, `after` is constant. -/
theorem after_stuck_B (x1 x2 x3 tgt : K) (s0 : Params K) (n : Nat)
    (hz : preact x1 x2 x3 (after x1 x2 x3 tgt s0 n) ≤ 0) (m : Nat) (hm : n ≤ m) :
    after x1 x2 x3 tgt s0 m = after x1 x2 x3 tgt s0 n := by
  induction m with
  | zero =>
    have : n = 0 := by omega
    subst this
    rfl
  | succ m ih =>
    by_cases h : n = m + 1
    · subst h
      rfl
    · have h1 := ih (by omega)
      show (epoch x1 x2 x3 tgt (m + 1) (after x1 x2 x3 tgt s0 m)).1 = _
      rw [h1]
      exact epoch_params_of_nonpos_B x1 x2 x3 tgt (m + 1) _ hz

/-- The line of an epoch is a dead record or an update record whose output and error add up
to the target. -/
theorem epoch_line_B (x1 x2 x3 tgt : K) (ep : Nat) (s : Params K) :
    ((epoch x1 x2 x3 tgt ep s).2 = Line.dead ep (preact x1 x2 x3 s)
        ∧ preact x1 x2 x3 s ≤ 0 ∧ tgt > 0) ∨
      (∃ w1 w2 w3 b, (epoch x1 x2 x3 tgt ep s).2
          = Line.update ep (relu (preact x1 x2 x3 s)) (tgt - relu (preact x1 x2 x3 s))
              w1 w2 w3 b
        ∧ (epoch x1 x2 x3 tgt ep s).1 = ⟨w1, w2, w3, b⟩) := by
  unfold epoch
  by_cases h : preact x1 x2 x3 s ≤ 0 ∧ tgt > 0
  · left
    simp [h]
  · right
    simp only [if_neg h]
    exact ⟨_, _, _, _, rfl, rfl⟩

/-- Every line printed by the loop, entered at any counter, comes from one epoch. -/
theorem loop_lines_B (x1 x2 x3 tgt : K) (n : Nat) :
    ∀ (ep : Nat) (s : Params K), ep + n = 16 → ∀ l ∈ (loop x1 x2 x3 tgt ep s).2,
      ∃ e s', ep ≤ e ∧ e ≤ 15 ∧ l = (epoch x1 x2 x3 tgt e s').2 := by
  induction n with
  | zero =>
    intro ep s h l hl
    rw [loop_exit_B x1 x2 x3 tgt ep s (by omega)] at hl
    simp at hl
  | succ n ih =>
    intro ep s h l hl
    rw [loop_step_B x1 x2 x3 tgt ep s (by omega)] at hl
    rcases List.mem_cons.mp hl with rfl | hl
    · exact ⟨ep, s, le_refl _, by omega, rfl⟩
    · obtain ⟨e, s', h1, h2, h3⟩ := ih (ep + 1) _ (by omega) l hl
      exact ⟨e, s', by omega, h2, h3⟩

/-- The whole output for the inputs `1 1 1`: the parameters alternate between two states. -/
theorem train_one_one_one :
    train (1 : K) 1 1 =
      [Line.header, Line.keys 1 1 1, Line.target 1, Line.initial 0.2 0.3 0.4 (-0.8),
        Line.before 0.1 0.1, Line.trainingStart,
        Line.update 1 0.1 0.9 0.65 0.75 0.85 (-0.35),
        Line.update 2 1.9 (-0.9) 0.2 0.3 0.4 (-0.8),
        Line.update 3 0.1 0.9 0.65 0.75 0.85 (-0.35),
        Line.update 4 1.9 (-0.9) 0.2 0.3 0.4 (-0.8),
        Line.update 5 0.1 0.9 0.65 0.75 0.85 (-0.35),
        Line.update 6 1.9 (-0.9) 0.2 0.3 0.4 (-0.8),
        Line.update 7 0.1 0.9 0.65 0.75 0.85 (-0.35),
        Line.update 8 1.9 (-0.9) 0.2 0.3 0.4 (-0.8),
        Line.update 9 0.1 0.9 0.65 0.75 0.85 (-0.35),
        Line.update 10 1.9 (-0.9) 0.2 0.3 0.4 (-0.8),
        Line.update 11 0.1 0.9 0.65 0.75 0.85 (-0.35),
        Line.update 12 1.9 (-0.9) 0.2 0.3 0.4 (-0.8),
        Line.update 13 0.1 0.9 0.65 0.75 0.85 (-0.35),
        Line.update 14 1.9 (-0.9) 0.2 0.3 0.4 (-0.8),
        Line.update 15 0.1 0.9 0.65 0.75 0.85 (-0.35),
        Line.done, Line.final 1.9 1.9, Line.safe true] := by
  norm_num [train, finalPass, target, loop_step_B, loop_exit_B, epoch, preact, relu,
    relu_derivative, learning_rate, init]

/-- The whole output when the target is 0 and the initial pre-activation is not positive:
every epoch is an update record with output 0 and error 0 that leaves the initial
parameters, and the safe stays closed. -/
theorem train_of_target_zero_B (x1 x2 x3 : K) (ht : target x1 x2 x3 = 0)
    (hz : preact x1 x2 x3 init ≤ 0) :
    train x1 x2 x3 =
      [Line.header, Line.keys x1 x2 x3, Line.target 0, Line.initial 0.2 0.3 0.4 (-0.8),
        Line.before (preact x1 x2 x3 init) 0, Line.trainingStart]
      ++ (List.range 15).map (fun i => Line.update (i + 1) 0 0 0.2 0.3 0.4 (-0.8))
      ++ [Line.done, Line.final (preact x1 x2 x3 init) 0, Line.safe false] := by
  have hstep : ∀ ep : Nat,
      epoch x1 x2 x3 0 ep init = (init, Line.update ep 0 0 0.2 0.3 0.4 (-0.8)) := by
    intro ep
    unfold epoch
    rw [if_neg (by simp)]
    simp only [relu_of_nonpos_B hz, relu_derivative_of_nonpos_B hz]
    simp [init]
  have hafter : ∀ n : Nat, after x1 x2 x3 0 init n = init := by
    intro n
    induction n with
    | zero => rfl
    | succ n ih => rw [after, ih, hstep]
  simp only [train, finalPass, ht, loop_eq_after_B, hafter, hstep, relu_of_nonpos_B hz]
  simp [init]

/-- The end of the output when the target is 0 and the initial pre-activation is not
positive. -/
theorem train_end_of_target_zero_B (x1 x2 x3 : K) (ht : target x1 x2 x3 = 0)
    (hz : preact x1 x2 x3 init ≤ 0) :
    [Line.final (preact x1 x2 x3 init) 0, Line.safe false] <:+ train x1 x2 x3 := by
  rw [train_of_target_zero_B x1 x2 x3 ht hz]
  exact (List.suffix_cons _ _).trans (List.suffix_append _ _)

end NN3

/-! ## The claims -/

/-- C1: the two-input program on the four binary input pairs, in exact arithmetic.  For the
inputs `1 1` the output ends with the final line `z = 1279/1280`, final output `1279/1280`
(strictly positive) and the decision YES; for `1 0`, `0 1` and `0 0` it ends with final
output exactly `0` and the decision NO.  So the decision is YES exactly for `1 1`. -/
theorem nn2_binary_inputs {K : Type} [LinearOrderedField K] :
    ([NN2.Line.final (1279 / 1280) (1279 / 1280), NN2.Line.decision true]
        <:+ NN2.train (1 : K) 1 ∧ (0 : K) < 1279 / 1280) ∧
    [NN2.Line.final (-0.2) 0, NN2.Line.decision false] <:+ NN2.train (1 : K) 0 ∧
    [NN2.Line.final (-0.1) 0, NN2.Line.decision false] <:+ NN2.train (0 : K) 1 ∧
    [NN2.Line.final (-0.5) 0, NN2.Line.decision false] <:+ NN2.train (0 : K) 0 := by
  refine ⟨⟨?_, by norm_num⟩, ?_, ?_, ?_⟩
  · have h : [NN2.Line.final (1279 / 1280) (1279 / 1280), NN2.Line.decision true]
        = List.drop 17 (NN2.train (1 : K) 1) := by
      rw [NN2.train_one_one]
      norm_num
    rw [h]
    exact List.drop_suffix _ _
  · have h := NN2.train_end_of_target_zero (1 : K) 0 (by norm_num [NN2.target])
      (by norm_num [NN2.preact, NN2.init])
    norm_num [NN2.preact, NN2.init] at h
    norm_num
    exact h
  · have h := NN2.train_end_of_target_zero (0 : K) 1 (by norm_num [NN2.target])
      (by norm_num [NN2.preact, NN2.init])
    norm_num [NN2.preact, NN2.init] at h
    norm_num
    exact h
  · have h := NN2.train_end_of_target_zero (0 : K) 0 (by norm_num [NN2.target])
      (by norm_num [NN2.preact, NN2.init])
    norm_num [NN2.preact, NN2.init] at h
    norm_num
    exact h

/-- C2: the three-input program on the eight binary input triples, in exact arithmetic.  For
the inputs `1 1 1` the output ends with final output `1.9` and the decision OPENED; for each
of the seven other triples it ends with final output `0` and the decision CLOSED.  So the
decision is OPENED exactly for `1 1 1`. -/
theorem nn3_binary_inputs {K : Type} [LinearOrderedField K] :
    [NN3.Line.final 1.9 1.9, NN3.Line.safe true] <:+ NN3.train (1 : K) 1 1 ∧
    [NN3.Line.final (-0.3) 0, NN3.Line.safe false] <:+ NN3.train (1 : K) 1 0 ∧
    [NN3.Line.final (-0.2) 0, NN3.Line.safe false] <:+ NN3.train (1 : K) 0 1 ∧
    [NN3.Line.final (-0.1) 0, NN3.Line.safe false] <:+ NN3.train (0 : K) 1 1 ∧
    [NN3.Line.final (-0.6) 0, NN3.Line.safe false] <:+ NN3.train (1 : K) 0 0 ∧
    [NN3.Line.final (-0.5) 0, NN3.Line.safe false] <:+ NN3.train (0 : K) 1 0 ∧
    [NN3.Line.final (-0.4) 0, NN3.Line.safe false] <:+ NN3.train (0 : K) 0 1 ∧
    [NN3.Line.final (-0.8) 0, NN3.Line.safe false] <:+ NN3.train (0 : K) 0 0 := by
  refine ⟨?_, ?_, ?_, ?_, ?_, ?_, ?_, ?_⟩
  · have h : [NN3.Line.final 1.9 1.9, NN3.Line.safe true]
        = List.drop 22 (NN3.train (1 : K) 1 1) := by
      rw [NN3.train_one_one_one]
      norm_num
    rw [h]
    exact List.drop_suffix _ _
  · have h := NN3.train_end_of_target_zero_B (1 : K) 1 0 (by norm_num [NN3.target])
      (by norm_num [NN3.preact, NN3.init])
    norm_num [NN3.preact, NN3.init] at h
    norm_num
    exact h
  · have h := NN3.train_end_of_target_zero_B (1 : K) 0 1 (by norm_num [NN3.target])
      (by norm_num [NN3.preact, NN3.init])
    norm_num [NN3.preact, NN3.init] at h
    norm_num
    exact h
  · have h := NN3.train_end_of_target_zero_B (0 : K) 1 1 (by norm_num [NN3.target])
      (by norm_num [NN3.preact, NN3.init])
    norm_num [NN3.preact, NN3.init] at h
    norm_num
    exact h
  · have h := NN3.train_end_of_target_zero_B (1 : K) 0 0 (by norm_num [NN3.target])
      (by norm_num [NN3.preact, NN3.init])
    norm_num [NN3.preact, NN3.init] at h
    norm_num
    exact h
  · have h := NN3.train_end_of_target_zero_B (0 : K) 1 0 (by norm_num [NN3.target])
      (by norm_num [NN3.preact, NN3.init])
    norm_num [NN3.preact, NN3.init] at h
    norm_num
    exact h
  · have h := NN3.train_end_of_target_zero_B (0 : K) 0 1 (by norm_num [NN3.target])
      (by norm_num [NN3.preact, NN3.init])
    norm_num [NN3.preact, NN3.init] at h
    norm_num
    exact h
  · have h := NN3.train_end_of_target_zero_B (0 : K) 0 0 (by norm_num [NN3.target])
      (by norm_num [NN3.preact, NN3.init])
    norm_num [NN3.preact, NN3.init] at h
    norm_num
    exact h

/-- C3: the dead-neuron skip.  For a positive target, in both programs, an epoch entered with
any parameters and any inputs whose pre-activation `z` is not positive returns the parameters
unchanged and prints the dead-neuron record with that `z`. -/
theorem dead_neuron_skip {K : Type} [LinearOrderedField K] (tgt : K) (htgt : tgt > 0) :
    (∀ (x1 x2 : K) (ep : Nat) (s : NN2.Params K), NN2.preact x1 x2 s ≤ 0 →
      NN2.epoch x1 x2 tgt ep s = (s, NN2.Line.dead ep (NN2.preact x1 x2 s))) ∧
    (∀ (x1 x2 x3 : K) (ep : Nat) (s : NN3.Params K), NN3.preact x1 x2 x3 s ≤ 0 →
      NN3.epoch x1 x2 x3 tgt ep s = (s, NN3.Line.dead ep (NN3.preact x1 x2 x3 s))) :=
  ⟨fun x1 x2 ep s hz => NN2.epoch_dead x1 x2 tgt ep s hz htgt,
    fun x1 x2 x3 ep s hz => NN3.epoch_dead_B x1 x2 x3 tgt ep s hz htgt⟩

/-- C3 at concrete values: target 1, inputs all 1, a negative first weight. -/
theorem dead_neuron_skip_witness :
    (1 : ℚ) > 0 ∧ NN2.preact (1 : ℚ) 1 ⟨-1, 0.4, -0.5⟩ ≤ 0 ∧
    NN2.epoch (1 : ℚ) 1 1 4 ⟨-1, 0.4, -0.5⟩
      = (⟨-1, 0.4, -0.5⟩, NN2.Line.dead 4 (NN2.preact (1 : ℚ) 1 ⟨-1, 0.4, -0.5⟩)) ∧
    NN3.preact (1 : ℚ) 1 1 ⟨-1, 0.3, 0.4, -0.8⟩ ≤ 0 ∧
    NN3.epoch (1 : ℚ) 1 1 1 4 ⟨-1, 0.3, 0.4, -0.8⟩
      = (⟨-1, 0.3, 0.4, -0.8⟩,
          NN3.Line.dead 4 (NN3.preact (1 : ℚ) 1 1 ⟨-1, 0.3, 0.4, -0.8⟩)) :=
  ⟨by norm_num, by norm_num [NN2.preact],
    (dead_neuron_skip (1 : ℚ) (by norm_num)).1 1 1 4 ⟨-1, 0.4, -0.5⟩
      (by norm_num [NN2.preact]),
    by norm_num [NN3.preact],
    (dead_neuron_skip (1 : ℚ) (by norm_num)).2 1 1 1 4 ⟨-1, 0.3, 0.4, -0.8⟩
      (by norm_num [NN3.preact])⟩

/-- C4: a dead neuron never recovers.  For a positive target, in both programs, whatever the
inputs and the parameters `s0` the loop is entered with: if the pre-activation `z` at the
start of some epoch `n + 1` (after `n` completed epochs) is not positive, then every epoch
from there on starts from the same parameters, has the same non-positive `z` and takes the
dead-neuron branch, so prints the dead-neuron record; the parameters at loop exit are those
at the start of epoch `n + 1`; and the final pass reports final output `0` and the negative
decision. -/
theorem dead_neuron_never_recovers {K : Type} [LinearOrderedField K] (tgt : K)
    (htgt : tgt > 0) :
    (∀ (x1 x2 : K) (s0 : NN2.Params K) (n : Nat), n < 10 →
      NN2.preact x1 x2 (NN2.after x1 x2 tgt s0 n) ≤ 0 →
      (∀ m, n ≤ m → m < 10 →
        NN2.preact x1 x2 (NN2.after x1 x2 tgt s0 m) ≤ 0 ∧
        NN2.epoch x1 x2 tgt (m + 1) (NN2.after x1 x2 tgt s0 m)
          = (NN2.after x1 x2 tgt s0 n,
              NN2.Line.dead (m + 1) (NN2.preact x1 x2 (NN2.after x1 x2 tgt s0 n))) ∧
        (NN2.loop x1 x2 tgt 1 s0).2[m]?
          = some (NN2.Line.dead (m + 1) (NN2.preact x1 x2 (NN2.after x1 x2 tgt s0 n)))) ∧
      (NN2.loop x1 x2 tgt 1 s0).1 = NN2.after x1 x2 tgt s0 n ∧
      NN2.finalPass x1 x2 (NN2.loop x1 x2 tgt 1 s0).1
        = [NN2.Line.complete,
            NN2.Line.final (NN2.preact x1 x2 (NN2.after x1 x2 tgt s0 n)) 0,
            NN2.Line.decision false]) ∧
    (∀ (x1 x2 x3 : K) (s0 : NN3.Params K) (n : Nat), n < 15 →
      NN3.preact x1 x2 x3 (NN3.after x1 x2 x3 tgt s0 n) ≤ 0 →
      (∀ m, n ≤ m → m < 15 →
        NN3.preact x1 x2 x3 (NN3.after x1 x2 x3 tgt s0 m) ≤ 0 ∧
        NN3.epoch x1 x2 x3 tgt (m + 1) (NN3.after x1 x2 x3 tgt s0 m)
          = (NN3.after x1 x2 x3 tgt s0 n,
              NN3.Line.dead (m + 1) (NN3.preact x1 x2 x3 (NN3.after x1 x2 x3 tgt s0 n))) ∧
        (NN3.loop x1 x2 x3 tgt 1 s0).2[m]?
          = some (NN3.Line.dead (m + 1)
              (NN3.preact x1 x2 x3 (NN3.after x1 x2 x3 tgt s0 n)))) ∧
      (NN3.loop x1 x2 x3 tgt 1 s0).1 = NN3.after x1 x2 x3 tgt s0 n ∧
      NN3.finalPass x1 x2 x3 (NN3.loop x1 x2 x3 tgt 1 s0).1
        = [NN3.Line.done,
            NN3.Line.final (NN3.preact x1 x2 x3 (NN3.after x1 x2 x3 tgt s0 n)) 0,
            NN3.Line.safe false]) := by
  constructor
  · intro x1 x2 s0 n hn hz
    have hst := NN2.after_stuck x1 x2 tgt s0 n hz
    have hexit : (NN2.loop x1 x2 tgt 1 s0).1 = NN2.after x1 x2 tgt s0 n := by
      rw [NN2.loop_eq_after]
      exact hst 10 (by omega)
    refine ⟨?_, hexit, ?_⟩
    · intro m hnm hm
      have hm' := hst m hnm
      refine ⟨by rw [hm']; exact hz, ?_, ?_⟩
      · rw [hm']
        exact NN2.epoch_dead x1 x2 tgt (m + 1) _ hz htgt
      · rw [NN2.loop_eq_after]
        simp only [List.getElem?_map, List.getElem?_range hm, Option.map_some', hm',
          NN2.epoch_dead x1 x2 tgt (m + 1) _ hz htgt]
    · rw [hexit]
      simp [NN2.finalPass, NN2.relu_of_nonpos hz]
  · intro x1 x2 x3 s0 n hn hz
    have hst := NN3.after_stuck_B x1 x2 x3 tgt s0 n hz
    have hexit : (NN3.loop x1 x2 x3 tgt 1 s0).1 = NN3.after x1 x2 x3 tgt s0 n := by
      rw [NN3.loop_eq_after_B]
      exact hst 15 (by omega)
    refine ⟨?_, hexit, ?_⟩
    · intro m hnm hm
      have hm' := hst m hnm
      refine ⟨by rw [hm']; exact hz, ?_, ?_⟩
      · rw [hm']
        exact NN3.epoch_dead_B x1 x2 x3 tgt (m + 1) _ hz htgt
      · rw [NN3.loop_eq_after_B]
        simp only [List.getElem?_map, List.getElem?_range hm, Option.map_some', hm',
          NN3.epoch_dead_B x1 x2 x3 tgt (m + 1) _ hz htgt]
    · rw [hexit]
      simp [NN3.finalPass, NN3.relu_of_nonpos_B hz]

/-- C4 at concrete values: target 1, inputs all 1 and all parameters 1 at loop entry.  Epoch 1
overshoots (`z = 3` and `z = 4`) and its update leaves `z = 0` and `z = -2`; from epoch 2 on
the neuron is dead, and the loop exits with the parameters left by epoch 1. -/
theorem dead_neuron_never_recovers_witness :
    (1 : ℚ) > 0 ∧
    NN2.after (1 : ℚ) 1 1 ⟨1, 1, 1⟩ 1 = ⟨0, 0, 0⟩ ∧
    NN2.preact (1 : ℚ) 1 (NN2.after (1 : ℚ) 1 1 ⟨1, 1, 1⟩ 1) ≤ 0 ∧
    (NN2.loop (1 : ℚ) 1 1 1 ⟨1, 1, 1⟩).1 = NN2.after (1 : ℚ) 1 1 ⟨1, 1, 1⟩ 1 ∧
    NN3.after (1 : ℚ) 1 1 1 ⟨1, 1, 1, 1⟩ 1 = ⟨-0.5, -0.5, -0.5, -0.5⟩ ∧
    NN3.preact (1 : ℚ) 1 1 (NN3.after (1 : ℚ) 1 1 1 ⟨1, 1, 1, 1⟩ 1) ≤ 0 ∧
    (NN3.loop (1 : ℚ) 1 1 1 1 ⟨1, 1, 1, 1⟩).1 = NN3.after (1 : ℚ) 1 1 1 ⟨1, 1, 1, 1⟩ 1 :=
  ⟨by norm_num,
    by norm_num [NN2.after, NN2.epoch, NN2.preact, NN2.relu, NN2.relu_derivative,
      NN2.learning_rate],
    by norm_num [NN2.after, NN2.epoch, NN2.preact, NN2.relu, NN2.relu_derivative,
      NN2.learning_rate],
    ((dead_neuron_never_recovers (1 : ℚ) (by norm_num)).1 1 1 ⟨1, 1, 1⟩ 1 (by norm_num)
      (by norm_num [NN2.after, NN2.epoch, NN2.preact, NN2.relu, NN2.relu_derivative,
        NN2.learning_rate])).2.1,
    by norm_num [NN3.after, NN3.epoch, NN3.preact, NN3.relu, NN3.relu_derivative,
      NN3.learning_rate],
    by norm_num [NN3.after, NN3.epoch, NN3.preact, NN3.relu, NN3.relu_derivative,
      NN3.learning_rate],
    ((dead_neuron_never_recovers (1 : ℚ) (by norm_num)).2 1 1 1 ⟨1, 1, 1, 1⟩ 1 (by norm_num)
      (by norm_num [NN3.after, NN3.epoch, NN3.preact, NN3.relu, NN3.relu_derivative,
        NN3.learning_rate])).2.1⟩

/-- C5: the target.  In both programs the target is 1 exactly when every input equals 1, and 0
exactly otherwise, so it is never anything but 0 or 1.  It is one value for the whole run: the
target line of the output shows it, and in every update record of the output, at whatever
epoch, the printed output and error add up to it (the error is that target minus the
output). -/
theorem target_computation {K : Type} [LinearOrderedField K] :
    (∀ x1 x2 : K,
      (NN2.target x1 x2 = 1 ↔ x1 = 1 ∧ x2 = 1) ∧
      (NN2.target x1 x2 = 0 ↔ ¬(x1 = 1 ∧ x2 = 1)) ∧
      (NN2.target x1 x2 = 0 ∨ NN2.target x1 x2 = 1) ∧
      (∀ t, NN2.Line.target t ∈ NN2.train x1 x2 → t = NN2.target x1 x2) ∧
      (∀ ep o e w1 w2 b, NN2.Line.update ep o e w1 w2 b ∈ NN2.train x1 x2 →
        o + e = NN2.target x1 x2)) ∧
    (∀ x1 x2 x3 : K,
      (NN3.target x1 x2 x3 = 1 ↔ x1 = 1 ∧ x2 = 1 ∧ x3 = 1) ∧
      (NN3.target x1 x2 x3 = 0 ↔ ¬(x1 = 1 ∧ x2 = 1 ∧ x3 = 1)) ∧
      (NN3.target x1 x2 x3 = 0 ∨ NN3.target x1 x2 x3 = 1) ∧
      (∀ t, NN3.Line.target t ∈ NN3.train x1 x2 x3 → t = NN3.target x1 x2 x3) ∧
      (∀ ep o e w1 w2 w3 b, NN3.Line.update ep o e w1 w2 w3 b ∈ NN3.train x1 x2 x3 →
        o + e = NN3.target x1 x2 x3)) := by
  constructor
  · intro x1 x2
    refine ⟨?_, ?_, ?_, ?_, ?_⟩
    · by_cases h : x1 = 1 ∧ x2 = 1
      · norm_num [NN2.target, h]
      · norm_num [NN2.target, h]
    · by_cases h : x1 = 1 ∧ x2 = 1
      · norm_num [NN2.target, h]
      · norm_num [NN2.target, h]
    · by_cases h : x1 = 1 ∧ x2 = 1
      · right
        norm_num [NN2.target, h]
      · left
        norm_num [NN2.target, h]
    · intro t ht
      simp only [NN2.train, NN2.finalPass, List.mem_append, List.mem_cons] at ht
      rcases ht with (ht | ht) | ht
      · simpa using ht
      · obtain ⟨e, s', _, _, hl⟩ := NN2.loop_lines x1 x2 _ 10 1 _ rfl _ ht
        rcases NN2.epoch_line x1 x2 (NN2.target x1 x2) e s' with ⟨h1, _⟩ | ⟨_, _, _, h1, _⟩
        · rw [h1] at hl
          cases hl
        · rw [h1] at hl
          cases hl
      · simp at ht
    · intro ep o e w1 w2 b ht
      simp only [NN2.train, NN2.finalPass, List.mem_append, List.mem_cons] at ht
      rcases ht with (ht | ht) | ht
      · simp at ht
      · obtain ⟨e', s', _, _, hl⟩ := NN2.loop_lines x1 x2 _ 10 1 _ rfl _ ht
        rcases NN2.epoch_line x1 x2 (NN2.target x1 x2) e' s' with ⟨h1, _⟩ | ⟨_, _, _, h1, _⟩
        · rw [h1] at hl
          cases hl
        · rw [h1] at hl
          cases hl
          ring
      · simp at ht
  · intro x1 x2 x3
    refine ⟨?_, ?_, ?_, ?_, ?_⟩
    · by_cases h : x1 = 1 ∧ x2 = 1 ∧ x3 = 1
      · norm_num [NN3.target, h]
      · norm_num [NN3.target, h]
    · by_cases h : x1 = 1 ∧ x2 = 1 ∧ x3 = 1
      · norm_num [NN3.target, h]
      · norm_num [NN3.target, h]
    · by_cases h : x1 = 1 ∧ x2 = 1 ∧ x3 = 1
      · right
        norm_num [NN3.target, h]
      · left
        norm_num [NN3.target, h]
    · intro t ht
      simp only [NN3.train, NN3.finalPass, List.mem_append, List.mem_cons] at ht
      rcases ht with (ht | ht) | ht
      · simpa using ht
      · obtain ⟨e, s', _, _, hl⟩ := NN3.loop_lines_B x1 x2 x3 _ 15 1 _ rfl _ ht
        rcases NN3.epoch_line_B x1 x2 x3 (NN3.target x1 x2 x3) e s' with
          ⟨h1, _⟩ | ⟨_, _, _, _, h1, _⟩
        · rw [h1] at hl
          cases hl
        · rw [h1] at hl
          cases hl
      · simp at ht
    · intro ep o e w1 w2 w3 b ht
      simp only [NN3.train, NN3.finalPass, List.mem_append, List.mem_cons] at ht
      rcases ht with (ht | ht) | ht
      · simp at ht
      · obtain ⟨e', s', _, _, hl⟩ := NN3.loop_lines_B x1 x2 x3 _ 15 1 _ rfl _ ht
        rcases NN3.epoch_line_B x1 x2 x3 (NN3.target x1 x2 x3) e' s' with
          ⟨h1, _⟩ | ⟨_, _, _, _, h1, _⟩
        · rw [h1] at hl
          cases hl
        · rw [h1] at hl
          cases hl
          ring
      · simp at ht

/-- C7: the start of the two-input trace for the inputs `1 1`, in exact arithmetic.  The
target is 1 and the initial parameters are `0.3, 0.4, -0.5`; the initial `z` is `0.2`;
epoch 1 reports output `0.2`, error `0.8` and leaves `0.7, 0.8, -0.1`; epoch 2, from those
parameters, has `z = 1.4`, reports output `1.4`, error `-0.4` and leaves `0.5, 0.6, -0.3`;
and the output of the program starts with exactly these lines. -/
theorem nn2_trace_one_one {K : Type} [LinearOrderedField K] :
    NN2.target (1 : K) 1 = 1 ∧
    (NN2.init : NN2.Params K) = ⟨0.3, 0.4, -0.5⟩ ∧
    NN2.preact (1 : K) 1 NN2.init = 0.2 ∧
    NN2.epoch (1 : K) 1 1 1 NN2.init
      = (⟨0.7, 0.8, -0.1⟩, NN2.Line.update 1 0.2 0.8 0.7 0.8 (-0.1)) ∧
    NN2.preact (1 : K) 1 ⟨0.7, 0.8, -0.1⟩ = 1.4 ∧
    NN2.epoch (1 : K) 1 1 2 ⟨0.7, 0.8, -0.1⟩
      = (⟨0.5, 0.6, -0.3⟩, NN2.Line.update 2 1.4 (-0.4) 0.5 0.6 (-0.3)) ∧
    [NN2.Line.header, NN2.Line.input 1 1, NN2.Line.target 1,
      NN2.Line.initial 0.3 0.4 (-0.5), NN2.Line.before 0.2 0.2, NN2.Line.trainingStart,
      NN2.Line.update 1 0.2 0.8 0.7 0.8 (-0.1),
      NN2.Line.update 2 1.4 (-0.4) 0.5 0.6 (-0.3)] <+: NN2.train (1 : K) 1 := by
  refine ⟨?_, rfl, ?_, ?_, ?_, ?_, ?_⟩
  · norm_num [NN2.target]
  · norm_num [NN2.preact, NN2.init]
  · norm_num [NN2.epoch, NN2.preact, NN2.init, NN2.relu, NN2.relu_derivative,
      NN2.learning_rate]
  · norm_num [NN2.preact]
  · norm_num [NN2.epoch, NN2.preact, NN2.relu, NN2.relu_derivative, NN2.learning_rate]
  · rw [NN2.train_one_one]
    exact ⟨_, rfl⟩

/-- C8, the code on the inputs `1 1` against the sample trace of the header comment.  The
epoch-10 record (the sixteenth line of the output, and the only record of epoch 10) has output
`641/640` and error `-1/640`, which print as `1.002` and `-0.002`, not as the `0.900` and
`0.100` of the comment; the output ends with the final line `z = 1279/1280`, final output
`1279/1280`, which print as `0.999`, not as the `1.200` of the comment, and with the decision
YES, as the comment has it. -/
theorem nn2_sample_trace_divergence {K : Type} [LinearOrderedField K] :
    (NN2.train (1 : K) 1)[15]?
      = some (NN2.Line.update 10 (641 / 640 : K) (-1 / 640) (145 / 256) (853 / 1280)
          (-299 / 1280)) ∧
    (∀ o e w1 w2 b, NN2.Line.update 10 o e w1 w2 b ∈ NN2.train (1 : K) 1 →
      o = 641 / 640 ∧ e = -1 / 640) ∧
    printsAs3 (641 / 640 : K) 1.002 ∧ ¬printsAs3 (641 / 640 : K) 0.900 ∧
    printsAs3 (-1 / 640 : K) (-0.002) ∧ ¬printsAs3 (-1 / 640 : K) 0.100 ∧
    [NN2.Line.complete, NN2.Line.final (1279 / 1280) (1279 / 1280), NN2.Line.decision true]
      <:+ NN2.train (1 : K) 1 ∧
    (∀ z f, NN2.Line.final z f ∈ NN2.train (1 : K) 1 → z = 1279 / 1280 ∧ f = 1279 / 1280) ∧
    printsAs3 (1279 / 1280 : K) 0.999 ∧ ¬printsAs3 (1279 / 1280 : K) 1.200 := by
  refine ⟨?_, ?_, ?_, ?_, ?_, ?_, ?_, ?_, ?_, ?_⟩
  · rw [NN2.train_one_one]
    norm_num
  · intro o e w1 w2 b hmem
    rw [NN2.train_one_one] at hmem
    simp at hmem
    obtain ⟨rfl, rfl, -⟩ := hmem
    constructor <;> norm_num
  · norm_num [printsAs3, abs_lt]
  · norm_num [printsAs3, abs_lt]
  · norm_num [printsAs3, abs_lt]
  · norm_num [printsAs3, abs_lt]
  · have h : [NN2.Line.complete, NN2.Line.final (1279 / 1280) (1279 / 1280),
        NN2.Line.decision true] = List.drop 16 (NN2.train (1 : K) 1) := by
      rw [NN2.train_one_one]
      norm_num
    rw [h]
    exact List.drop_suffix _ _
  · intro z f hmem
    rw [NN2.train_one_one] at hmem
    simp at hmem
    obtain ⟨rfl, rfl⟩ := hmem
    constructor <;> norm_num
  · norm_num [printsAs3, abs_lt]
  · norm_num [printsAs3, abs_lt]

/-- C9: the argument-count check.  With `argv` the whole argument vector (program name first,
so the number of positional arguments is `argv.length - 1`) and any `atof`: the two-input
program returns exit code 1 and prints only the two usage lines whenever `argv` does not have
exactly 3 entries, and returns exit code 0 with the full trace (six opening lines, ten epoch
records, three closing lines) of the parsed inputs whenever it has; the three-input program
does the same with 4 entries and fifteen epoch records.  The exit code is 1 only for a wrong
count, whatever `atof` makes of the argument text. -/
theorem argument_count_check {K : Type} [LinearOrderedField K] (atof : String → K)
    (argv : List String) :
    (argv.length ≠ 3 →
      NN2.main atof argv
        = (1, [NN2.Line.usage argv.head?, NN2.Line.usageExample argv.head?])) ∧
    (argv.length = 3 → ∃ prog a1 a2, argv = [prog, a1, a2] ∧
      NN2.main atof argv = (0, NN2.train (atof a1) (atof a2)) ∧
      ∃ z0 epochs z f d, epochs.length = 10 ∧ (∀ l ∈ epochs, l.isEpochRecord = true) ∧
        NN2.train (atof a1) (atof a2)
          = [NN2.Line.header, NN2.Line.input (atof a1) (atof a2),
              NN2.Line.target (NN2.target (atof a1) (atof a2)),
              NN2.Line.initial 0.3 0.4 (-0.5), NN2.Line.before z0 (NN2.relu z0),
              NN2.Line.trainingStart]
            ++ epochs ++ [NN2.Line.complete, NN2.Line.final z f, NN2.Line.decision d]) ∧
    ((NN2.main atof argv).1 = 1 ↔ argv.length ≠ 3) ∧
    (argv.length ≠ 4 →
      NN3.main atof argv
        = (1, [NN3.Line.usage argv.head?, NN3.Line.usageExample argv.head?])) ∧
    (argv.length = 4 → ∃ prog a1 a2 a3, argv = [prog, a1, a2, a3] ∧
      NN3.main atof argv = (0, NN3.train (atof a1) (atof a2) (atof a3)) ∧
      ∃ z0 epochs z f d, epochs.length = 15 ∧ (∀ l ∈ epochs, l.isEpochRecord = true) ∧
        NN3.train (atof a1) (atof a2) (atof a3)
          = [NN3.Line.header, NN3.Line.keys (atof a1) (atof a2) (atof a3),
              NN3.Line.target (NN3.target (atof a1) (atof a2) (atof a3)),
              NN3.Line.initial 0.2 0.3 0.4 (-0.8), NN3.Line.before z0 (NN3.relu z0),
              NN3.Line.trainingStart]
            ++ epochs ++ [NN3.Line.done, NN3.Line.final z f, NN3.Line.safe d]) ∧
    ((NN3.main atof argv).1 = 1 ↔ argv.length ≠ 4) := by
  have hA : ∀ x1 x2 tgt : K, ∀ s0 : NN2.Params K,
      (NN2.loop x1 x2 tgt 1 s0).2.length = 10
        ∧ ∀ l ∈ (NN2.loop x1 x2 tgt 1 s0).2, l.isEpochRecord = true := by
    intro x1 x2 tgt s0
    refine ⟨by simp [NN2.loop_eq_after], ?_⟩
    intro l hl
    obtain ⟨e, s', _, _, rfl⟩ := NN2.loop_lines x1 x2 tgt 10 1 s0 rfl l hl
    rcases NN2.epoch_line x1 x2 tgt e s' with ⟨h1, _⟩ | ⟨_, _, _, h1, _⟩ <;> rw [h1] <;> rfl
  have hB : ∀ x1 x2 x3 tgt : K, ∀ s0 : NN3.Params K,
      (NN3.loop x1 x2 x3 tgt 1 s0).2.length = 15
        ∧ ∀ l ∈ (NN3.loop x1 x2 x3 tgt 1 s0).2, l.isEpochRecord = true := by
    intro x1 x2 x3 tgt s0
    refine ⟨by simp [NN3.loop_eq_after_B], ?_⟩
    intro l hl
    obtain ⟨e, s', _, _, rfl⟩ := NN3.loop_lines_B x1 x2 x3 tgt 15 1 s0 rfl l hl
    rcases NN3.epoch_line_B x1 x2 x3 tgt e s' with ⟨h1, _⟩ | ⟨_, _, _, _, h1, _⟩ <;>
      rw [h1] <;> rfl
  refine ⟨?_, ?_, ?_, ?_, ?_, ?_⟩
  · intro h
    match argv, h with
    | [], _ => rfl
    | [_], _ => rfl
    | [_, _], _ => rfl
    | [_, _, _], h => exact absurd rfl h
    | _ :: _ :: _ :: _ :: _, _ => rfl
  · intro h
    match argv, h with
    | [prog, a1, a2], _ =>
      refine ⟨prog, a1, a2, rfl, rfl, NN2.preact (atof a1) (atof a2) NN2.init,
        (NN2.loop (atof a1) (atof a2) (NN2.target (atof a1) (atof a2)) 1 NN2.init).2,
        NN2.preact (atof a1) (atof a2)
          (NN2.loop (atof a1) (atof a2) (NN2.target (atof a1) (atof a2)) 1 NN2.init).1,
        NN2.relu (NN2.preact (atof a1) (atof a2)
          (NN2.loop (atof a1) (atof a2) (NN2.target (atof a1) (atof a2)) 1 NN2.init).1),
        decide (NN2.relu (NN2.preact (atof a1) (atof a2)
          (NN2.loop (atof a1) (atof a2) (NN2.target (atof a1) (atof a2)) 1 NN2.init).1) > 0),
        (hA _ _ _ _).1, (hA _ _ _ _).2, rfl⟩
  · match argv with
    | [] => simp [NN2.main]
    | [_] => simp [NN2.main]
    | [_, _] => simp [NN2.main]
    | [_, _, _] => simp [NN2.main]
    | _ :: _ :: _ :: _ :: _ => simp [NN2.main]
  · intro h
    match argv, h with
    | [], _ => rfl
    | [_], _ => rfl
    | [_, _], _ => rfl
    | [_, _, _], _ => rfl
    | [_, _, _, _], h => exact absurd rfl h
    | _ :: _ :: _ :: _ :: _ :: _, _ => rfl
  · intro h
    match argv, h with
    | [prog, a1, a2, a3], _ =>
      refine ⟨prog, a1, a2, a3, rfl, rfl, NN3.preact (atof a1) (atof a2) (atof a3) NN3.init,
        (NN3.loop (atof a1) (atof a2) (atof a3)
          (NN3.target (atof a1) (atof a2) (atof a3)) 1 NN3.init).2,
        NN3.preact (atof a1) (atof a2) (atof a3)
          (NN3.loop (atof a1) (atof a2) (atof a3)
            (NN3.target (atof a1) (atof a2) (atof a3)) 1 NN3.init).1,
        NN3.relu (NN3.preact (atof a1) (atof a2) (atof a3)
          (NN3.loop (atof a1) (atof a2) (atof a3)
            (NN3.target (atof a1) (atof a2) (atof a3)) 1 NN3.init).1),
        decide (NN3.relu (NN3.preact (atof a1) (atof a2) (atof a3)
          (NN3.loop (atof a1) (atof a2) (atof a3)
            (NN3.target (atof a1) (atof a2) (atof a3)) 1 NN3.init).1) > 0),
        (hB _ _ _ _ _).1, (hB _ _ _ _ _).2, rfl⟩
  · match argv with
    | [] => simp [NN3.main]
    | [_] => simp [NN3.main]
    | [_, _] => simp [NN3.main]
    | [_, _, _] => simp [NN3.main]
    | [_, _, _, _] => simp [NN3.main]
    | _ :: _ :: _ :: _ :: _ :: _ => simp [NN3.main]

/-- C9 at concrete argument vectors, with an `atof` that reads the text `1` as 1 and any other
text as 0: one positional argument gives exit code 1 and the usage lines only, two positional
arguments (one of them not numeric) give exit code 0; for the three-input program two
positional arguments give exit code 1 and three give exit code 0. -/
theorem argument_count_check_witness :
    NN2.main (fun s => if s = "1" then (1 : ℚ) else 0) ["nn", "1"]
      = (1, [NN2.Line.usage (some "nn"), NN2.Line.usageExample (some "nn")]) ∧
    (NN2.main (fun s => if s = "1" then (1 : ℚ) else 0) ["nn", "1", "abc"]).1 = 0 ∧
    NN3.main (fun s => if s = "1" then (1 : ℚ) else 0) ["nn", "1", "1"]
      = (1, [NN3.Line.usage (some "nn"), NN3.Line.usageExample (some "nn")]) ∧
    (NN3.main (fun s => if s = "1" then (1 : ℚ) else 0) ["nn", "1", "abc", "1"]).1 = 0 :=
  ⟨(argument_count_check (fun s => if s = "1" then (1 : ℚ) else 0) ["nn", "1"]).1
      (by decide),
    by
      obtain ⟨_, _, _, _, h, _⟩ := (argument_count_check
        (fun s => if s = "1" then (1 : ℚ) else 0) ["nn", "1", "abc"]).2.1 rfl
      rw [h],
    (argument_count_check (fun s => if s = "1" then (1 : ℚ) else 0) ["nn", "1", "1"]).2.2.2.1
      (by decide),
    by
      obtain ⟨_, _, _, _, _, h, _⟩ := (argument_count_check
        (fun s => if s = "1" then (1 : ℚ) else 0) ["nn", "1", "abc", "1"]).2.2.2.2.1 rfl
      rw [h]⟩

/-- C10: the final decision.  In both programs, for any inputs and any parameters `s` left by
the loop, the final pass prints the final `z` of `s`, the final output `relu z` and a decision
that is positive exactly when that final output is strictly positive, which is exactly when the
final `z` is strictly positive.  The output of the program ends with the final pass on the
parameters left by the last epoch. -/
theorem final_decision {K : Type} [LinearOrderedField K] :
    (∀ (x1 x2 : K) (s : NN2.Params K), ∃ d : Bool,
      NN2.finalPass x1 x2 s
        = [NN2.Line.complete,
            NN2.Line.final (NN2.preact x1 x2 s) (NN2.relu (NN2.preact x1 x2 s)),
            NN2.Line.decision d] ∧
      (d = true ↔ NN2.relu (NN2.preact x1 x2 s) > 0) ∧
      (NN2.relu (NN2.preact x1 x2 s) > 0 ↔ NN2.preact x1 x2 s > 0)) ∧
    (∀ x1 x2 : K,
      NN2.finalPass x1 x2 (NN2.loop x1 x2 (NN2.target x1 x2) 1 NN2.init).1
        <:+ NN2.train x1 x2) ∧
    (∀ (x1 x2 x3 : K) (s : NN3.Params K), ∃ d : Bool,
      NN3.finalPass x1 x2 x3 s
        = [NN3.Line.done,
            NN3.Line.final (NN3.preact x1 x2 x3 s) (NN3.relu (NN3.preact x1 x2 x3 s)),
            NN3.Line.safe d] ∧
      (d = true ↔ NN3.relu (NN3.preact x1 x2 x3 s) > 0) ∧
      (NN3.relu (NN3.preact x1 x2 x3 s) > 0 ↔ NN3.preact x1 x2 x3 s > 0)) ∧
    (∀ x1 x2 x3 : K,
      NN3.finalPass x1 x2 x3 (NN3.loop x1 x2 x3 (NN3.target x1 x2 x3) 1 NN3.init).1
        <:+ NN3.train x1 x2 x3) := by
  refine ⟨?_, ?_, ?_, ?_⟩
  · intro x1 x2 s
    exact ⟨decide (NN2.relu (NN2.preact x1 x2 s) > 0), rfl, by simp,
      NN2.relu_pos_iff _⟩
  · intro x1 x2
    exact List.suffix_append _ _
  · intro x1 x2 x3 s
    exact ⟨decide (NN3.relu (NN3.preact x1 x2 x3 s) > 0), rfl, by simp,
      NN3.relu_pos_iff_B _⟩
  · intro x1 x2 x3
    exact List.suffix_append _ _

/-! ## Idle epochs and the epoch records -/

namespace NN2

variable {K : Type} [LinearOrderedField K]

theorem relu_eq_max (z : K) : relu z = max z 0 := by
  by_cases h : 0 < z
  · rw [relu_of_pos h, max_eq_left h.le]
  · rw [relu_of_nonpos (not_lt.mp h), max_eq_right (not_lt.mp h)]

/-- With target 0 and a pre-activation that is not positive, an epoch is an update record with
output 0 and error 0 that leaves the parameters as they are. -/
theorem epoch_idle (x1 x2 : K) (ep : Nat) (s : Params K) (hz : preact x1 x2 s ≤ 0) :
    epoch x1 x2 0 ep s = (s, Line.update ep 0 0 s.w1 s.w2 s.b) := by
  unfold epoch
  rw [if_neg (by simp)]
  simp only [relu_of_nonpos hz, relu_derivative_of_nonpos hz]
  simp

/-- With target 0 and a pre-activation that is not positive, the whole loop is ten such
records. -/
theorem loop_idle (x1 x2 : K) (s : Params K) (hz : preact x1 x2 s ≤ 0) :
    loop x1 x2 0 1 s
      = (s, (List.range 10).map (fun i => Line.update (i + 1) 0 0 s.w1 s.w2 s.b)) := by
  have hafter : ∀ n : Nat, after x1 x2 0 s n = s := by
    intro n
    induction n with
    | zero => rfl
    | succ n ih => rw [after, ih, epoch_idle x1 x2 _ s hz]
  simp only [loop_eq_after, hafter, epoch_idle x1 x2 _ s hz]

/-- The record at position `i` of the loop output is the record of epoch `i + 1`. -/
theorem loop_record (x1 x2 tgt : K) (s0 : Params K) (i : Nat) (hi : i < 10) :
    (loop x1 x2 tgt 1 s0).2[i]?
      = some (epoch x1 x2 tgt (i + 1) (after x1 x2 tgt s0 i)).2 := by
  rw [loop_eq_after]
  simp only [List.getElem?_map, List.getElem?_range hi, Option.map_some']

/-- Outside the dead-neuron condition the parameters left by an epoch are those of the
recurrence of the specification. -/
theorem epoch_eq_specUpdate (x1 x2 tgt : K) (ep : Nat) (s : Params K)
    (h : ¬(preact x1 x2 s ≤ 0 ∧ tgt > 0)) :
    (epoch x1 x2 tgt ep s).1 = specUpdate x1 x2 tgt s := by
  unfold epoch specUpdate
  rw [if_neg h]
  have hd : ∀ z : K, relu_derivative z = if z > 0 then 1 else 0 := by
    intro z
    by_cases hz : z > 0
    · rw [relu_derivative_of_pos hz, if_pos hz]
    · rw [relu_derivative_of_nonpos (not_lt.mp hz), if_neg hz]
  simp only [relu_eq_max, hd, learning_rate, preact, Params.mk.injEq]
  refine ⟨by ring, by ring, by ring⟩

end NN2

namespace NN3

variable {K : Type} [LinearOrderedField K]

theorem relu_eq_max_B (z : K) : relu z = max z 0 := by
  by_cases h : 0 < z
  · rw [relu_of_pos_B h, max_eq_left h.le]
  · rw [relu_of_nonpos_B (not_lt.mp h), max_eq_right (not_lt.mp h)]

/-- With target 0 and a pre-activation that is not positive, an epoch is an update record with
output 0 and error 0 that leaves the parameters as they are. -/
theorem epoch_idle_B (x1 x2 x3 : K) (ep : Nat) (s : Params K)
    (hz : preact x1 x2 x3 s ≤ 0) :
    epoch x1 x2 x3 0 ep s = (s, Line.update ep 0 0 s.w1 s.w2 s.w3 s.b) := by
  unfold epoch
  rw [if_neg (by simp)]
  simp only [relu_of_nonpos_B hz, relu_derivative_of_nonpos_B hz]
  simp

/-- With target 0 and a pre-activation that is not positive, the whole loop is fifteen such
records. -/
theorem loop_idle_B (x1 x2 x3 : K) (s : Params K) (hz : preact x1 x2 x3 s ≤ 0) :
    loop x1 x2 x3 0 1 s
      = (s, (List.range 15).map (fun i => Line.update (i + 1) 0 0 s.w1 s.w2 s.w3 s.b)) := by
  have hafter : ∀ n : Nat, after x1 x2 x3 0 s n = s := by
    intro n
    induction n with
    | zero => rfl
    | succ n ih => rw [after, ih, epoch_idle_B x1 x2 x3 _ s hz]
  simp only [loop_eq_after_B, hafter, epoch_idle_B x1 x2 x3 _ s hz]

/-- The record at position `i` of the loop output is the record of epoch `i + 1`. -/
theorem loop_record_B (x1 x2 x3 tgt : K) (s0 : Params K) (i : Nat) (hi : i < 15) :
    (loop x1 x2 x3 tgt 1 s0).2[i]?
      = some (epoch x1 x2 x3 tgt (i + 1) (after x1 x2 x3 tgt s0 i)).2 := by
  rw [loop_eq_after_B]
  simp only [List.getElem?_map, List.getElem?_range hi, Option.map_some']

end NN3

/-! ## The claims on the forward pass, the epoch count and the zero-target runs -/

/-- C11: the forward pass.  In both programs `z` is the sum of the products `w_i * x_i` plus
the bias, and `relu z` is `max z 0`: `z` itself for `z > 0` and `0` for `z ≤ 0`.  Every place
of the program that runs a forward pass reports exactly these values: an epoch prints either
the dead record with that `z` or an update record with output `max z 0`, and the final pass
prints that `z` and `max z 0`.  Forward passes on equal weights, bias and inputs give equal
`z` and activation. -/
theorem forward_pass {K : Type} [LinearOrderedField K] :
    (∀ z : K, NN2.relu z = max z 0 ∧ (z > 0 → NN2.relu z = z) ∧ (z ≤ 0 → NN2.relu z = 0)) ∧
    (∀ (x1 x2 : K) (s : NN2.Params K), NN2.preact x1 x2 s = s.w1 * x1 + s.w2 * x2 + s.b) ∧
    (∀ (x1 x2 tgt : K) (ep : Nat) (s : NN2.Params K),
      (NN2.epoch x1 x2 tgt ep s).2 = NN2.Line.dead ep (s.w1 * x1 + s.w2 * x2 + s.b) ∨
      ∃ w1 w2 b, (NN2.epoch x1 x2 tgt ep s).2
        = NN2.Line.update ep (max (s.w1 * x1 + s.w2 * x2 + s.b) 0)
            (tgt - max (s.w1 * x1 + s.w2 * x2 + s.b) 0) w1 w2 b) ∧
    (∀ (x1 x2 : K) (s : NN2.Params K), ∃ d,
      NN2.finalPass x1 x2 s
        = [NN2.Line.complete,
            NN2.Line.final (s.w1 * x1 + s.w2 * x2 + s.b) (max (s.w1 * x1 + s.w2 * x2 + s.b) 0),
            NN2.Line.decision d]) ∧
    (∀ (x1 x2 y1 y2 : K) (s t : NN2.Params K), x1 = y1 → x2 = y2 → s = t →
      NN2.preact x1 x2 s = NN2.preact y1 y2 t
        ∧ NN2.relu (NN2.preact x1 x2 s) = NN2.relu (NN2.preact y1 y2 t)) ∧
    (∀ z : K, NN3.relu z = max z 0 ∧ (z > 0 → NN3.relu z = z) ∧ (z ≤ 0 → NN3.relu z = 0)) ∧
    (∀ (x1 x2 x3 : K) (s : NN3.Params K),
      NN3.preact x1 x2 x3 s = s.w1 * x1 + s.w2 * x2 + s.w3 * x3 + s.b) ∧
    (∀ (x1 x2 x3 tgt : K) (ep : Nat) (s : NN3.Params K),
      (NN3.epoch x1 x2 x3 tgt ep s).2
        = NN3.Line.dead ep (s.w1 * x1 + s.w2 * x2 + s.w3 * x3 + s.b) ∨
      ∃ w1 w2 w3 b, (NN3.epoch x1 x2 x3 tgt ep s).2
        = NN3.Line.update ep (max (s.w1 * x1 + s.w2 * x2 + s.w3 * x3 + s.b) 0)
            (tgt - max (s.w1 * x1 + s.w2 * x2 + s.w3 * x3 + s.b) 0) w1 w2 w3 b) ∧
    (∀ (x1 x2 x3 : K) (s : NN3.Params K), ∃ d,
      NN3.finalPass x1 x2 x3 s
        = [NN3.Line.done,
            NN3.Line.final (s.w1 * x1 + s.w2 * x2 + s.w3 * x3 + s.b)
              (max (s.w1 * x1 + s.w2 * x2 + s.w3 * x3 + s.b) 0),
            NN3.Line.safe d]) ∧
    (∀ (x1 x2 x3 y1 y2 y3 : K) (s t : NN3.Params K), x1 = y1 → x2 = y2 → x3 = y3 → s = t →
      NN3.preact x1 x2 x3 s = NN3.preact y1 y2 y3 t
        ∧ NN3.relu (NN3.preact x1 x2 x3 s) = NN3.relu (NN3.preact y1 y2 y3 t)) := by
  refine ⟨?_, ?_, ?_, ?_, ?_, ?_, ?_, ?_, ?_, ?_⟩
  · intro z
    exact ⟨NN2.relu_eq_max z, fun h => NN2.relu_of_pos h, fun h => NN2.relu_of_nonpos h⟩
  · intro x1 x2 s
    rfl
  · intro x1 x2 tgt ep s
    rcases NN2.epoch_line x1 x2 tgt ep s with ⟨h, _⟩ | ⟨w1, w2, b, h, _⟩
    · left
      rw [h]
      rfl
    · right
      refine ⟨w1, w2, b, ?_⟩
      rw [h, NN2.relu_eq_max]
      rfl
  · intro x1 x2 s
    refine ⟨decide (NN2.relu (NN2.preact x1 x2 s) > 0), ?_⟩
    rw [← NN2.relu_eq_max]
    rfl
  · intro x1 x2 y1 y2 s t h1 h2 h3
    subst h1 h2 h3
    exact ⟨rfl, rfl⟩
  · intro z
    exact ⟨NN3.relu_eq_max_B z, fun h => NN3.relu_of_pos_B h, fun h => NN3.relu_of_nonpos_B h⟩
  · intro x1 x2 x3 s
    rfl
  · intro x1 x2 x3 tgt ep s
    rcases NN3.epoch_line_B x1 x2 x3 tgt ep s with ⟨h, _⟩ | ⟨w1, w2, w3, b, h, _⟩
    · left
      rw [h]
      rfl
    · right
      refine ⟨w1, w2, w3, b, ?_⟩
      rw [h, NN3.relu_eq_max_B]
      rfl
  · intro x1 x2 x3 s
    refine ⟨decide (NN3.relu (NN3.preact x1 x2 x3 s) > 0), ?_⟩
    rw [← NN3.relu_eq_max_B]
    rfl
  · intro x1 x2 x3 y1 y2 y3 s t h1 h2 h3 h4
    subst h1 h2 h3 h4
    exact ⟨rfl, rfl⟩

/-- C11 at concrete values: a positive and a negative pre-activation in each program. -/
theorem forward_pass_witness :
    NN2.relu (NN2.preact (1 : ℚ) 1 NN2.init) = 0.2 ∧
    NN2.relu (NN2.preact (1 : ℚ) 0 NN2.init) = 0 ∧
    NN3.relu (NN3.preact (1 : ℚ) 1 1 NN3.init) = 0.1 ∧
    NN3.relu (NN3.preact (1 : ℚ) 1 0 NN3.init) = 0 :=
  ⟨(((@forward_pass ℚ _).1 (NN2.preact (1 : ℚ) 1 NN2.init)).2.1
      (by norm_num [NN2.preact, NN2.init])).trans (by norm_num [NN2.preact, NN2.init]),
    ((@forward_pass ℚ _).1 (NN2.preact (1 : ℚ) 0 NN2.init)).2.2
      (by norm_num [NN2.preact, NN2.init]),
    (((@forward_pass ℚ _).2.2.2.2.2.1 (NN3.preact (1 : ℚ) 1 1 NN3.init)).2.1
      (by norm_num [NN3.preact, NN3.init])).trans (by norm_num [NN3.preact, NN3.init]),
    ((@forward_pass ℚ _).2.2.2.2.2.1 (NN3.preact (1 : ℚ) 1 0 NN3.init)).2.2
      (by norm_num [NN3.preact, NN3.init])⟩

/-- C12: the fixed epoch count.  For all inputs, any target and any parameters at loop entry,
the loop of the two-input program prints exactly 10 records and that of the three-input
program exactly 15, the record at position `i` being the dead record or the update record of
epoch `i + 1`; the whole output has 19 (respectively 24) lines, 10 (15) of them epoch records.
In particular the count is the same when every epoch has error 0 (target 0, output 0) and when
every epoch takes the dead-neuron branch. -/
theorem fixed_epoch_count {K : Type} [LinearOrderedField K] :
    (∀ (x1 x2 tgt : K) (s0 : NN2.Params K),
      (NN2.loop x1 x2 tgt 1 s0).2.length = 10 ∧
      ∀ i, i < 10 →
        (∃ z, (NN2.loop x1 x2 tgt 1 s0).2[i]? = some (NN2.Line.dead (i + 1) z)) ∨
        (∃ o e w1 w2 b, (NN2.loop x1 x2 tgt 1 s0).2[i]?
          = some (NN2.Line.update (i + 1) o e w1 w2 b))) ∧
    (∀ x1 x2 : K, (NN2.train x1 x2).length = 19 ∧
      ((NN2.train x1 x2).filter NN2.Line.isEpochRecord).length = 10) ∧
    (∀ (x1 x2 : K) (s0 : NN2.Params K), NN2.preact x1 x2 s0 ≤ 0 →
      (NN2.loop x1 x2 0 1 s0).2
        = (List.range 10).map (fun i => NN2.Line.update (i + 1) 0 0 s0.w1 s0.w2 s0.b)) ∧
    (∀ (x1 x2 tgt : K) (s0 : NN2.Params K), tgt > 0 → NN2.preact x1 x2 s0 ≤ 0 →
      (NN2.loop x1 x2 tgt 1 s0).2
        = (List.range 10).map (fun i => NN2.Line.dead (i + 1) (NN2.preact x1 x2 s0))) ∧
    (∀ (x1 x2 x3 tgt : K) (s0 : NN3.Params K),
      (NN3.loop x1 x2 x3 tgt 1 s0).2.length = 15 ∧
      ∀ i, i < 15 →
        (∃ z, (NN3.loop x1 x2 x3 tgt 1 s0).2[i]? = some (NN3.Line.dead (i + 1) z)) ∨
        (∃ o e w1 w2 w3 b, (NN3.loop x1 x2 x3 tgt 1 s0).2[i]?
          = some (NN3.Line.update (i + 1) o e w1 w2 w3 b))) ∧
    (∀ x1 x2 x3 : K, (NN3.train x1 x2 x3).length = 24 ∧
      ((NN3.train x1 x2 x3).filter NN3.Line.isEpochRecord).length = 15) ∧
    (∀ (x1 x2 x3 : K) (s0 : NN3.Params K), NN3.preact x1 x2 x3 s0 ≤ 0 →
      (NN3.loop x1 x2 x3 0 1 s0).2
        = (List.range 15).map
            (fun i => NN3.Line.update (i + 1) 0 0 s0.w1 s0.w2 s0.w3 s0.b)) ∧
    (∀ (x1 x2 x3 tgt : K) (s0 : NN3.Params K), tgt > 0 → NN3.preact x1 x2 x3 s0 ≤ 0 →
      (NN3.loop x1 x2 x3 tgt 1 s0).2
        = (List.range 15).map
            (fun i => NN3.Line.dead (i + 1) (NN3.preact x1 x2 x3 s0))) := by
  have lenA : ∀ (x1 x2 tgt : K) (s0 : NN2.Params K),
      (NN2.loop x1 x2 tgt 1 s0).2.length = 10 := by
    intro x1 x2 tgt s0
    simp [NN2.loop_eq_after]
  have recA : ∀ (x1 x2 tgt : K) (s0 : NN2.Params K),
      ∀ l ∈ (NN2.loop x1 x2 tgt 1 s0).2, l.isEpochRecord = true := by
    intro x1 x2 tgt s0 l hl
    obtain ⟨e, s', _, _, rfl⟩ := NN2.loop_lines x1 x2 tgt 10 1 s0 rfl l hl
    rcases NN2.epoch_line x1 x2 tgt e s' with ⟨h1, _⟩ | ⟨_, _, _, h1, _⟩ <;> rw [h1] <;> rfl
  have lenB : ∀ (x1 x2 x3 tgt : K) (s0 : NN3.Params K),
      (NN3.loop x1 x2 x3 tgt 1 s0).2.length = 15 := by
    intro x1 x2 x3 tgt s0
    simp [NN3.loop_eq_after_B]
  have recB : ∀ (x1 x2 x3 tgt : K) (s0 : NN3.Params K),
      ∀ l ∈ (NN3.loop x1 x2 x3 tgt 1 s0).2, l.isEpochRecord = true := by
    intro x1 x2 x3 tgt s0 l hl
    obtain ⟨e, s', _, _, rfl⟩ := NN3.loop_lines_B x1 x2 x3 tgt 15 1 s0 rfl l hl
    rcases NN3.epoch_line_B x1 x2 x3 tgt e s' with ⟨h1, _⟩ | ⟨_, _, _, _, h1, _⟩ <;>
      rw [h1] <;> rfl
  refine ⟨?_, ?_, ?_, ?_, ?_, ?_, ?_, ?_⟩
  · intro x1 x2 tgt s0
    refine ⟨lenA x1 x2 tgt s0, ?_⟩
    intro i hi
    rw [NN2.loop_record x1 x2 tgt s0 i hi]
    rcases NN2.epoch_line x1 x2 tgt (i + 1) (NN2.after x1 x2 tgt s0 i) with
      ⟨h1, _⟩ | ⟨w1, w2, b, h1, _⟩
    · exact Or.inl ⟨_, by rw [h1]⟩
    · exact Or.inr ⟨_, _, w1, w2, b, by rw [h1]⟩
  · intro x1 x2
    constructor
    · simp [NN2.train, NN2.finalPass, lenA]
    · have hf := List.filter_eq_self.mpr (recA x1 x2 (NN2.target x1 x2) NN2.init)
      simp only [NN2.train, NN2.finalPass, List.filter_append, hf]
      simp [List.filter_cons, NN2.Line.isEpochRecord, lenA]
  · intro x1 x2 s0 hz
    rw [NN2.loop_idle x1 x2 s0 hz]
  · intro x1 x2 tgt s0 ht hz
    have hst : ∀ n, NN2.after x1 x2 tgt s0 n = s0 :=
      fun n => NN2.after_stuck x1 x2 tgt s0 0 hz n (Nat.zero_le n)
    simp only [NN2.loop_eq_after, hst, NN2.epoch_dead x1 x2 tgt _ s0 hz ht]
  · intro x1 x2 x3 tgt s0
    refine ⟨lenB x1 x2 x3 tgt s0, ?_⟩
    intro i hi
    rw [NN3.loop_record_B x1 x2 x3 tgt s0 i hi]
    rcases NN3.epoch_line_B x1 x2 x3 tgt (i + 1) (NN3.after x1 x2 x3 tgt s0 i) with
      ⟨h1, _⟩ | ⟨w1, w2, w3, b, h1, _⟩
    · exact Or.inl ⟨_, by rw [h1]⟩
    · exact Or.inr ⟨_, _, w1, w2, w3, b, by rw [h1]⟩
  · intro x1 x2 x3
    constructor
    · simp [NN3.train, NN3.finalPass, lenB]
    · have hf := List.filter_eq_self.mpr (recB x1 x2 x3 (NN3.target x1 x2 x3) NN3.init)
      simp only [NN3.train, NN3.finalPass, List.filter_append, hf]
      simp [List.filter_cons, NN3.Line.isEpochRecord, lenB]
  · intro x1 x2 x3 s0 hz
    rw [NN3.loop_idle_B x1 x2 x3 s0 hz]
  · intro x1 x2 x3 tgt s0 ht hz
    have hst : ∀ n, NN3.after x1 x2 x3 tgt s0 n = s0 :=
      fun n => NN3.after_stuck_B x1 x2 x3 tgt s0 0 hz n (Nat.zero_le n)
    simp only [NN3.loop_eq_after_B, hst, NN3.epoch_dead_B x1 x2 x3 tgt _ s0 hz ht]

/-- C13: the two-input program on the inputs `1 0`, `0 1` and `0 0`, in exact arithmetic.  In
each case the target is 0; the ten records of the loop are update records (output 0, error 0,
parameters `0.3, 0.4, -0.5`), so the dead-neuron skip never fires; and the parameters after
any number of epochs are those obtained by applying the update recurrence of the specification
that many times to the initial parameters, which here leaves them at their initial values. -/
theorem nn2_zero_target_runs {K : Type} [LinearOrderedField K] :
    (NN2.target (1 : K) 0 = 0 ∧
      (NN2.loop (1 : K) 0 (NN2.target 1 0) 1 NN2.init).2
        = (List.range 10).map (fun i => NN2.Line.update (i + 1) 0 0 0.3 0.4 (-0.5)) ∧
      ∀ n, NN2.after (1 : K) 0 (NN2.target 1 0) NN2.init n
          = (NN2.specUpdate 1 0 (NN2.target 1 0))^[n] NN2.init
        ∧ NN2.after (1 : K) 0 (NN2.target 1 0) NN2.init n = ⟨0.3, 0.4, -0.5⟩) ∧
    (NN2.target (0 : K) 1 = 0 ∧
      (NN2.loop (0 : K) 1 (NN2.target 0 1) 1 NN2.init).2
        = (List.range 10).map (fun i => NN2.Line.update (i + 1) 0 0 0.3 0.4 (-0.5)) ∧
      ∀ n, NN2.after (0 : K) 1 (NN2.target 0 1) NN2.init n
          = (NN2.specUpdate 0 1 (NN2.target 0 1))^[n] NN2.init
        ∧ NN2.after (0 : K) 1 (NN2.target 0 1) NN2.init n = ⟨0.3, 0.4, -0.5⟩) ∧
    (NN2.target (0 : K) 0 = 0 ∧
      (NN2.loop (0 : K) 0 (NN2.target 0 0) 1 NN2.init).2
        = (List.range 10).map (fun i => NN2.Line.update (i + 1) 0 0 0.3 0.4 (-0.5)) ∧
      ∀ n, NN2.after (0 : K) 0 (NN2.target 0 0) NN2.init n
          = (NN2.specUpdate 0 0 (NN2.target 0 0))^[n] NN2.init
        ∧ NN2.after (0 : K) 0 (NN2.target 0 0) NN2.init n = ⟨0.3, 0.4, -0.5⟩) := by
  have key : ∀ x1 x2 : K, NN2.target x1 x2 = 0 → NN2.preact x1 x2 NN2.init ≤ 0 →
      NN2.target x1 x2 = 0 ∧
      (NN2.loop x1 x2 (NN2.target x1 x2) 1 NN2.init).2
        = (List.range 10).map (fun i => NN2.Line.update (i + 1) 0 0 0.3 0.4 (-0.5)) ∧
      ∀ n, NN2.after x1 x2 (NN2.target x1 x2) NN2.init n
          = (NN2.specUpdate x1 x2 (NN2.target x1 x2))^[n] NN2.init
        ∧ NN2.after x1 x2 (NN2.target x1 x2) NN2.init n = ⟨0.3, 0.4, -0.5⟩ := by
    intro x1 x2 ht hz
    rw [ht]
    have hspec : ∀ n, NN2.after x1 x2 0 NN2.init n
        = (NN2.specUpdate x1 x2 0)^[n] NN2.init := by
      intro n
      induction n with
      | zero => rfl
      | succ n ih =>
        rw [Function.iterate_succ_apply', ← ih, NN2.after]
        exact NN2.epoch_eq_specUpdate x1 x2 0 _ _ (by simp)
    refine ⟨rfl, ?_, fun n => ⟨hspec n, ?_⟩⟩
    · rw [NN2.loop_idle x1 x2 NN2.init hz]
      rfl
    · rw [NN2.after_stuck x1 x2 0 NN2.init 0 hz n (Nat.zero_le n)]
      rfl
  exact ⟨key 1 0 (by norm_num [NN2.target]) (by norm_num [NN2.preact, NN2.init]),
    key 0 1 (by norm_num [NN2.target]) (by norm_num [NN2.preact, NN2.init]),
    key 0 0 (by norm_num [NN2.target]) (by norm_num [NN2.preact, NN2.init])⟩

/-- C14: the three-input program on the inputs `1 1 1`, in exact arithmetic.  The target is 1,
the initial parameters are `0.2, 0.3, 0.4, -0.8`, the initial pre-activation is
`0.2 + 0.3 + 0.4 - 0.8 = 0.1 > 0`, so the dead-neuron condition fails at epoch 1, which
performs an update: the first epoch record of the output is an update record. -/
theorem nn3_first_epoch_one_one_one {K : Type} [LinearOrderedField K] :
    NN3.target (1 : K) 1 1 = 1 ∧
    (NN3.init : NN3.Params K) = ⟨0.2, 0.3, 0.4, -0.8⟩ ∧
    NN3.preact (1 : K) 1 1 NN3.init = 0.2 + 0.3 + 0.4 - 0.8 ∧
    NN3.preact (1 : K) 1 1 NN3.init = 0.1 ∧
    NN3.preact (1 : K) 1 1 NN3.init > 0 ∧
    ¬(NN3.preact (1 : K) 1 1 NN3.init ≤ 0 ∧ NN3.target (1 : K) 1 1 > 0) ∧
    NN3.epoch (1 : K) 1 1 (NN3.target 1 1 1) 1 NN3.init
      = (⟨0.65, 0.75, 0.85, -0.35⟩, NN3.Line.update 1 0.1 0.9 0.65 0.75 0.85 (-0.35)) ∧
    (NN3.train (1 : K) 1 1)[6]?
      = some (NN3.Line.update 1 (0.1 : K) 0.9 0.65 0.75 0.85 (-0.35)) := by
  refine ⟨?_, rfl, ?_, ?_, ?_, ?_, ?_, ?_⟩
  · norm_num [NN3.target]
  · norm_num [NN3.preact, NN3.init]
  · norm_num [NN3.preact, NN3.init]
  · norm_num [NN3.preact, NN3.init]
  · norm_num [NN3.preact, NN3.init]
  · norm_num [NN3.epoch, NN3.target, NN3.preact, NN3.init, NN3.relu, NN3.relu_derivative,
      NN3.learning_rate]
  · rw [NN3.train_one_one_one]
    simp

/-! ## The two-input trainer on arbitrary inputs -/

namespace NN2

variable {K : Type} [LinearOrderedField K]

/-- The final pass on parameters whose pre-activation is not positive. -/
theorem finalPass_of_nonpos (x1 x2 : K) (s : Params K) (hz : preact x1 x2 s ≤ 0) :
    finalPass x1 x2 s
      = [Line.complete, Line.final (preact x1 x2 s) 0, Line.decision false] := by
  simp [finalPass, relu_of_nonpos hz]

/-- With target 0 and a positive pre-activation `z`, an epoch subtracts `0.5 * z * x_i` from
each weight and `0.5 * z` from the bias. -/
theorem epoch_overshoot (x1 x2 : K) (ep : Nat) (s : Params K) (hz : 0 < preact x1 x2 s) :
    (epoch x1 x2 0 ep s).1
      = ⟨s.w1 - 0.5 * preact x1 x2 s * x1, s.w2 - 0.5 * preact x1 x2 s * x2,
          s.b - 0.5 * preact x1 x2 s⟩ := by
  unfold epoch
  rw [if_neg (by simp)]
  simp only [relu_of_pos hz, relu_derivative_of_pos hz, learning_rate, Params.mk.injEq]
  refine ⟨by ring, by ring, by ring⟩

/-- The pre-activation after such an epoch. -/
theorem preact_overshoot (x1 x2 z : K) (s : Params K) (hz : z = preact x1 x2 s) :
    preact x1 x2 ⟨s.w1 - 0.5 * z * x1, s.w2 - 0.5 * z * x2, s.b - 0.5 * z⟩
      = z * (1 - x1 ^ 2 - x2 ^ 2) / 2 := by
  subst hz
  simp only [preact]
  ring

/-- A positive initial pre-activation puts the input outside the unit circle. -/
theorem norm_of_init_pos (x1 x2 : K) (hz : 0 < preact x1 x2 init) :
    1 < x1 ^ 2 + x2 ^ 2 := by
  have h : 0 < 3 * x1 + 4 * x2 - 5 := by
    have h1 : preact x1 x2 init = (3 * x1 + 4 * x2 - 5) / 10 := by
      simp only [preact, init]
      ring
    rw [h1] at hz
    linarith
  nlinarith [sq_nonneg (4 * x1 - 3 * x2), mul_pos h h]

/-- With target 0 and a positive initial pre-activation, the first epoch drives the
pre-activation negative and the parameters stay where that epoch leaves them. -/
theorem run_of_init_pos (x1 x2 : K) (hz : 0 < preact x1 x2 init) :
    preact x1 x2 (after x1 x2 0 init 1) < 0 ∧
    (∀ n, 1 ≤ n → after x1 x2 0 init n = after x1 x2 0 init 1) ∧
    (loop x1 x2 0 1 init).1 = after x1 x2 0 init 1 := by
  have h1 : preact x1 x2 (after x1 x2 0 init 1) < 0 := by
    show preact x1 x2 (epoch x1 x2 0 1 init).1 < 0
    rw [epoch_overshoot x1 x2 1 init hz, preact_overshoot x1 x2 _ init rfl]
    have hn := norm_of_init_pos x1 x2 hz
    have : preact x1 x2 init * (1 - x1 ^ 2 - x2 ^ 2) < 0 :=
      mul_neg_of_pos_of_neg hz (by linarith)
    linarith
  have hst := after_stuck x1 x2 0 init 1 h1.le
  refine ⟨h1, hst, ?_⟩
  rw [loop_eq_after]
  exact hst 10 (by omega)

/-- With target 0 the output ends with a final `z` that is not positive, final output 0 and
the decision NO. -/
theorem train_end_of_target_zero_any (x1 x2 : K) (ht : target x1 x2 = 0) :
    ∃ z, z ≤ 0 ∧ [Line.final z 0, Line.decision false] <:+ train x1 x2 := by
  by_cases hz : preact x1 x2 init ≤ 0
  · exact ⟨_, hz, train_end_of_target_zero x1 x2 ht hz⟩
  · obtain ⟨h1, _, h3⟩ := run_of_init_pos x1 x2 (not_le.mp hz)
    refine ⟨_, h1.le, ?_⟩
    have hfin := finalPass_of_nonpos x1 x2 (after x1 x2 0 init 1) h1.le
    have hsuf : finalPass x1 x2 (loop x1 x2 (target x1 x2) 1 init).1 <:+ train x1 x2 :=
      List.suffix_append _ _
    rw [ht, h3, hfin] at hsuf
    exact (List.suffix_cons _ _).trans hsuf

/-- The decision line is the last line of an output that ends with it. -/
theorem getLast_of_suffix {α : Type} (l : List α) (a b : α) (h : [a, b] <:+ l) :
    l.getLast? = some b := by
  obtain ⟨t, rfl⟩ := h
  simp

/-- The final decision is YES exactly on the inputs `1 1`. -/
theorem decision_iff (x1 x2 : K) :
    ((train x1 x2).getLast? = some (Line.decision true) ↔ x1 = 1 ∧ x2 = 1) ∧
    ((train x1 x2).getLast? = some (Line.decision false) ↔ ¬(x1 = 1 ∧ x2 = 1)) := by
  by_cases h : x1 = 1 ∧ x2 = 1
  · obtain ⟨rfl, rfl⟩ := h
    have hl : (train (1 : K) 1).getLast? = some (Line.decision true) := by
      rw [train_one_one]
      simp
    rw [hl]
    simp
  · have ht : target x1 x2 = 0 := by
      norm_num [target, h]
    obtain ⟨z, _, hs⟩ := train_end_of_target_zero_any x1 x2 ht
    rw [getLast_of_suffix _ _ _ hs]
    simp [h]

end NN2

/-- C15: the two-input program over all real inputs, in exact arithmetic.  For every pair of
real numbers the last line of the output is the decision YES if and only if both inputs equal
1, and the decision NO otherwise.  For every other pair the output ends with a final `z` that
is not positive and final output 0; and if the initial `z` is positive there, then
`x1 ^ 2 + x2 ^ 2 > 1`, the first epoch leaves a negative `z`, and the parameters after any
later epoch are those left by the first. -/
theorem nn2_all_real_inputs (x1 x2 : ℝ) :
    ((NN2.train x1 x2).getLast? = some (NN2.Line.decision true) ↔ x1 = 1 ∧ x2 = 1) ∧
    ((NN2.train x1 x2).getLast? = some (NN2.Line.decision false) ↔ ¬(x1 = 1 ∧ x2 = 1)) ∧
    (¬(x1 = 1 ∧ x2 = 1) → NN2.target x1 x2 = 0 ∧
      ∃ z, z ≤ 0 ∧ [NN2.Line.final z 0, NN2.Line.decision false] <:+ NN2.train x1 x2) ∧
    (¬(x1 = 1 ∧ x2 = 1) → 0 < NN2.preact x1 x2 NN2.init →
      1 < x1 ^ 2 + x2 ^ 2 ∧
      NN2.preact x1 x2 (NN2.after x1 x2 (NN2.target x1 x2) NN2.init 1) < 0 ∧
      ∀ n, 1 ≤ n → NN2.after x1 x2 (NN2.target x1 x2) NN2.init n
        = NN2.after x1 x2 (NN2.target x1 x2) NN2.init 1) := by
  have ht : ¬(x1 = 1 ∧ x2 = 1) → NN2.target x1 x2 = 0 := by
    intro h
    norm_num [NN2.target, h]
  refine ⟨(NN2.decision_iff x1 x2).1, (NN2.decision_iff x1 x2).2, ?_, ?_⟩
  · intro h
    exact ⟨ht h, NN2.train_end_of_target_zero_any x1 x2 (ht h)⟩
  · intro h hz
    rw [ht h]
    obtain ⟨h1, h2, _⟩ := NN2.run_of_init_pos x1 x2 hz
    exact ⟨NN2.norm_of_init_pos x1 x2 hz, h1, h2⟩

/-- C15 at concrete values: the inputs `2 0` have target 0 and initial `z = 0.1 > 0`; the first
epoch leaves a negative `z` and the program answers NO. -/
theorem nn2_all_real_inputs_witness :
    ¬((2 : ℝ) = 1 ∧ (0 : ℝ) = 1) ∧ 0 < NN2.preact (2 : ℝ) 0 NN2.init ∧
    (NN2.train (2 : ℝ) 0).getLast? = some (NN2.Line.decision false) ∧
    NN2.preact (2 : ℝ) 0 (NN2.after (2 : ℝ) 0 (NN2.target 2 0) NN2.init 1) < 0 :=
  ⟨by norm_num, by norm_num [NN2.preact, NN2.init],
    (nn2_all_real_inputs 2 0).2.1.mpr (by norm_num),
    ((nn2_all_real_inputs 2 0).2.2.2 (by norm_num) (by norm_num [NN2.preact, NN2.init])).2.1⟩

/-! ## The three-input trainer on arbitrary inputs -/

namespace NN3

variable {K : Type} [LinearOrderedField K]

/-- The final pass on parameters whose pre-activation is not positive. -/
theorem finalPass_of_nonpos_B (x1 x2 x3 : K) (s : Params K) (hz : preact x1 x2 x3 s ≤ 0) :
    finalPass x1 x2 x3 s
      = [Line.done, Line.final (preact x1 x2 x3 s) 0, Line.safe false] := by
  simp [finalPass, relu_of_nonpos_B hz]

/-- With target 0 and a positive pre-activation `z`, an epoch subtracts `0.5 * z * x_i` from
each weight and `0.5 * z` from the bias. -/
theorem epoch_overshoot_B (x1 x2 x3 : K) (ep : Nat) (s : Params K)
    (hz : 0 < preact x1 x2 x3 s) :
    (epoch x1 x2 x3 0 ep s).1
      = ⟨s.w1 - 0.5 * preact x1 x2 x3 s * x1, s.w2 - 0.5 * preact x1 x2 x3 s * x2,
          s.w3 - 0.5 * preact x1 x2 x3 s * x3, s.b - 0.5 * preact x1 x2 x3 s⟩ := by
  unfold epoch
  rw [if_neg (by simp)]
  simp only [relu_of_pos_B hz, relu_derivative_of_pos_B hz, learning_rate, Params.mk.injEq]
  refine ⟨by ring, by ring, by ring, by ring⟩

/-- The pre-activation after such an epoch. -/
theorem preact_overshoot_B (x1 x2 x3 z : K) (s : Params K) (hz : z = preact x1 x2 x3 s) :
    preact x1 x2 x3
        ⟨s.w1 - 0.5 * z * x1, s.w2 - 0.5 * z * x2, s.w3 - 0.5 * z * x3, s.b - 0.5 * z⟩
      = z * (1 - x1 ^ 2 - x2 ^ 2 - x3 ^ 2) / 2 := by
  subst hz
  simp only [preact]
  ring

/-- A positive initial pre-activation puts the input outside the unit sphere. -/
theorem norm_of_init_pos_B (x1 x2 x3 : K) (hz : 0 < preact x1 x2 x3 init) :
    1 < x1 ^ 2 + x2 ^ 2 + x3 ^ 2 := by
  have h : 0 < 2 * x1 + 3 * x2 + 4 * x3 - 8 := by
    have h1 : preact x1 x2 x3 init = (2 * x1 + 3 * x2 + 4 * x3 - 8) / 10 := by
      simp only [preact, init]
      ring
    rw [h1] at hz
    linarith
  nlinarith [sq_nonneg (3 * x1 - 2 * x2), sq_nonneg (4 * x1 - 2 * x3),
    sq_nonneg (4 * x2 - 3 * x3), mul_pos h h]

/-- With target 0 and a positive initial pre-activation, the first epoch drives the
pre-activation negative and the parameters stay where that epoch leaves them. -/
theorem run_of_init_pos_B (x1 x2 x3 : K) (hz : 0 < preact x1 x2 x3 init) :
    preact x1 x2 x3 (after x1 x2 x3 0 init 1) < 0 ∧
    (∀ n, 1 ≤ n → after x1 x2 x3 0 init n = after x1 x2 x3 0 init 1) ∧
    (loop x1 x2 x3 0 1 init).1 = after x1 x2 x3 0 init 1 := by
  have h1 : preact x1 x2 x3 (after x1 x2 x3 0 init 1) < 0 := by
    show preact x1 x2 x3 (epoch x1 x2 x3 0 1 init).1 < 0
    rw [epoch_overshoot_B x1 x2 x3 1 init hz, preact_overshoot_B x1 x2 x3 _ init rfl]
    have hn := norm_of_init_pos_B x1 x2 x3 hz
    have : preact x1 x2 x3 init * (1 - x1 ^ 2 - x2 ^ 2 - x3 ^ 2) < 0 :=
      mul_neg_of_pos_of_neg hz (by linarith)
    linarith
  have hst := after_stuck_B x1 x2 x3 0 init 1 h1.le
  refine ⟨h1, hst, ?_⟩
  rw [loop_eq_after_B]
  exact hst 15 (by omega)

/-- With target 0 the output ends with a final `z` that is not positive, final output 0 and
the decision CLOSED. -/
theorem train_end_of_target_zero_any_B (x1 x2 x3 : K) (ht : target x1 x2 x3 = 0) :
    ∃ z, z ≤ 0 ∧ [Line.final z 0, Line.safe false] <:+ train x1 x2 x3 := by
  by_cases hz : preact x1 x2 x3 init ≤ 0
  · exact ⟨_, hz, train_end_of_target_zero_B x1 x2 x3 ht hz⟩
  · obtain ⟨h1, _, h3⟩ := run_of_init_pos_B x1 x2 x3 (not_le.mp hz)
    refine ⟨_, h1.le, ?_⟩
    have hfin := finalPass_of_nonpos_B x1 x2 x3 (after x1 x2 x3 0 init 1) h1.le
    have hsuf : finalPass x1 x2 x3 (loop x1 x2 x3 (target x1 x2 x3) 1 init).1
        <:+ train x1 x2 x3 := List.suffix_append _ _
    rw [ht, h3, hfin] at hsuf
    exact (List.suffix_cons _ _).trans hsuf

/-- The final decision is OPENED exactly on the inputs `1 1 1`. -/
theorem decision_iff_B (x1 x2 x3 : K) :
    ((train x1 x2 x3).getLast? = some (Line.safe true) ↔ x1 = 1 ∧ x2 = 1 ∧ x3 = 1) ∧
    ((train x1 x2 x3).getLast? = some (Line.safe false) ↔ ¬(x1 = 1 ∧ x2 = 1 ∧ x3 = 1)) := by
  by_cases h : x1 = 1 ∧ x2 = 1 ∧ x3 = 1
  · obtain ⟨rfl, rfl, rfl⟩ := h
    have hl : (train (1 : K) 1 1).getLast? = some (Line.safe true) := by
      rw [train_one_one_one]
      simp
    rw [hl]
    simp
  · have ht : target x1 x2 x3 = 0 := by
      norm_num [target, h]
    obtain ⟨z, _, hs⟩ := train_end_of_target_zero_any_B x1 x2 x3 ht
    rw [NN2.getLast_of_suffix _ _ _ hs]
    simp [h]

end NN3

/-- C16: the three-input program over all real inputs, in exact arithmetic.  For every triple
of real numbers the last line of the output is the decision OPENED if and only if all three
inputs equal 1, and the decision CLOSED otherwise; for every other triple the output ends
with a final `z` that is not positive and final output 0. -/
theorem nn3_all_real_inputs (x1 x2 x3 : ℝ) :
    ((NN3.train x1 x2 x3).getLast? = some (NN3.Line.safe true)
      ↔ x1 = 1 ∧ x2 = 1 ∧ x3 = 1) ∧
    ((NN3.train x1 x2 x3).getLast? = some (NN3.Line.safe false)
      ↔ ¬(x1 = 1 ∧ x2 = 1 ∧ x3 = 1)) ∧
    (¬(x1 = 1 ∧ x2 = 1 ∧ x3 = 1) → NN3.target x1 x2 x3 = 0 ∧
      ∃ z, z ≤ 0 ∧ [NN3.Line.final z 0, NN3.Line.safe false] <:+ NN3.train x1 x2 x3) := by
  refine ⟨(NN3.decision_iff_B x1 x2 x3).1, (NN3.decision_iff_B x1 x2 x3).2, ?_⟩
  intro h
  have ht : NN3.target x1 x2 x3 = 0 := by
    norm_num [NN3.target, h]
  exact ⟨ht, NN3.train_end_of_target_zero_any_B x1 x2 x3 ht⟩

/-- C16 at concrete values: the inputs `2 2 2` have target 0 and a positive initial `z`; the
program answers CLOSED. -/
theorem nn3_all_real_inputs_witness :
    ¬((2 : ℝ) = 1 ∧ (2 : ℝ) = 1 ∧ (2 : ℝ) = 1) ∧ 0 < NN3.preact (2 : ℝ) 2 2 NN3.init ∧
    (NN3.train (2 : ℝ) 2 2).getLast? = some (NN3.Line.safe false) :=
  ⟨by norm_num, by norm_num [NN3.preact, NN3.init],
    (nn3_all_real_inputs 2 2 2).2.1.mpr (by norm_num)⟩

/-! ## The three-input trainer on its positive sample -/

namespace NN3

variable {K : Type} [LinearOrderedField K]

/-- On inputs `1 1 1` with target 1, an epoch from the initial parameters overshoots to the
second state. -/
theorem epoch_low (ep : Nat) :
    epoch (1 : K) 1 1 1 ep ⟨0.2, 0.3, 0.4, -0.8⟩
      = (⟨0.65, 0.75, 0.85, -0.35⟩, Line.update ep 0.1 0.9 0.65 0.75 0.85 (-0.35)) := by
  norm_num [epoch, preact, relu, relu_derivative, learning_rate]

/-- On inputs `1 1 1` with target 1, an epoch from the second state falls back to the initial
parameters. -/
theorem epoch_high (ep : Nat) :
    epoch (1 : K) 1 1 1 ep ⟨0.65, 0.75, 0.85, -0.35⟩
      = (⟨0.2, 0.3, 0.4, -0.8⟩, Line.update ep 1.9 (-0.9) 0.2 0.3 0.4 (-0.8)) := by
  norm_num [epoch, preact, relu, relu_derivative, learning_rate]

/-- The parameters after `n` epochs on inputs `1 1 1` alternate with the parity of `n`. -/
theorem after_one_one_one (n : Nat) :
    after (1 : K) 1 1 1 init n
      = if n % 2 = 0 then ⟨0.2, 0.3, 0.4, -0.8⟩ else ⟨0.65, 0.75, 0.85, -0.35⟩ := by
  induction n with
  | zero => rfl
  | succ n ih =>
    rw [after, ih]
    rcases Nat.mod_two_eq_zero_or_one n with h | h
    · have h' : (n + 1) % 2 ≠ 0 := by omega
      rw [if_pos h, if_neg h', epoch_low]
    · have h0 : n % 2 ≠ 0 := by omega
      have h' : (n + 1) % 2 = 0 := by omega
      rw [if_neg h0, if_pos h', epoch_high]

end NN3

/-- C17: the three-input program does not converge on the inputs `1 1 1`, in exact arithmetic.
The parameters after `n` epochs are `0.2, 0.3, 0.4, -0.8` for even `n` and
`0.65, 0.75, 0.85, -0.35` for odd `n`; the pre-activation at the start of epoch `n + 1` is
`0.1` when `n + 1` is odd and `1.9` when it is even; the record of each of the 15 epochs is an
update record with error `0.9` or `-0.9`, of absolute value `0.9`; and the output ends with the
final output `1.9`, which is not the target 1, and the decision OPENED. -/
theorem nn3_oscillates {K : Type} [LinearOrderedField K] :
    NN3.target (1 : K) 1 1 = 1 ∧
    (∀ n, NN3.after (1 : K) 1 1 1 NN3.init n
      = if n % 2 = 0 then ⟨0.2, 0.3, 0.4, -0.8⟩ else ⟨0.65, 0.75, 0.85, -0.35⟩) ∧
    (∀ n, NN3.preact (1 : K) 1 1 (NN3.after (1 : K) 1 1 1 NN3.init n)
      = if (n + 1) % 2 = 1 then 0.1 else 1.9) ∧
    (∀ i, i < 15 → (NN3.loop (1 : K) 1 1 1 1 NN3.init).2[i]?
      = some (if (i + 1) % 2 = 1 then NN3.Line.update (i + 1) 0.1 0.9 0.65 0.75 0.85 (-0.35)
          else NN3.Line.update (i + 1) 1.9 (-0.9) 0.2 0.3 0.4 (-0.8))) ∧
    (∀ i, i < 15 → ∃ o e w1 w2 w3 b, (NN3.loop (1 : K) 1 1 1 1 NN3.init).2[i]?
      = some (NN3.Line.update (i + 1) o e w1 w2 w3 b) ∧ |e| = 0.9) ∧
    [NN3.Line.final 1.9 1.9, NN3.Line.safe true] <:+ NN3.train (1 : K) 1 1 ∧
    (1.9 : K) ≠ 1 := by
  have hrec : ∀ i, i < 15 → (NN3.loop (1 : K) 1 1 1 1 NN3.init).2[i]?
      = some (if (i + 1) % 2 = 1 then NN3.Line.update (i + 1) 0.1 0.9 0.65 0.75 0.85 (-0.35)
          else NN3.Line.update (i + 1) 1.9 (-0.9) 0.2 0.3 0.4 (-0.8)) := by
    intro i hi
    rw [NN3.loop_record_B _ _ _ _ _ i hi, NN3.after_one_one_one]
    rcases Nat.mod_two_eq_zero_or_one i with h | h
    · have h' : (i + 1) % 2 = 1 := by omega
      rw [if_pos h, if_pos h', NN3.epoch_low]
    · have h0 : i % 2 ≠ 0 := by omega
      have h' : (i + 1) % 2 ≠ 1 := by omega
      rw [if_neg h0, if_neg h', NN3.epoch_high]
  refine ⟨by norm_num [NN3.target], NN3.after_one_one_one, ?_, hrec, ?_, ?_, by norm_num⟩
  · intro n
    rw [NN3.after_one_one_one]
    rcases Nat.mod_two_eq_zero_or_one n with h | h
    · have h' : (n + 1) % 2 = 1 := by omega
      rw [if_pos h, if_pos h']
      norm_num [NN3.preact]
    · have h0 : n % 2 ≠ 0 := by omega
      have h' : (n + 1) % 2 ≠ 1 := by omega
      rw [if_neg h0, if_neg h']
      norm_num [NN3.preact]
  · intro i hi
    rw [hrec i hi]
    by_cases h : (i + 1) % 2 = 1
    · rw [if_pos h]
      exact ⟨_, _, _, _, _, _, rfl, by norm_num [abs_of_pos]⟩
    · rw [if_neg h]
      exact ⟨_, _, _, _, _, _, rfl, by norm_num [abs_of_neg]⟩
  · have h : [NN3.Line.final 1.9 1.9, NN3.Line.safe true]
        = List.drop 22 (NN3.train (1 : K) 1 1) := by
      rw [NN3.train_one_one_one]
      norm_num
    rw [h]
    exact List.drop_suffix _ _

/-! ## The update step in any arithmetic -/

namespace NN2

variable {K : Type} [Zero K] [Add K] [Sub K] [Mul K] [OfScientific K] [LT K] [LE K]
  [DecidableRel (fun a b : K => a < b)] [DecidableRel (fun a b : K => a ≤ b)]

/-- Whatever the arithmetic, outside the dead-neuron condition an epoch leaves the parameters
computed in the order of the code: the error times the slope, times the input, and only then
times the learning rate. -/
theorem epoch_update_in_order (x1 x2 tgt : K) (ep : Nat) (s : Params K)
    (h : ¬(preact x1 x2 s ≤ 0 ∧ tgt > 0)) :
    (epoch x1 x2 tgt ep s).1
      = ⟨s.w1 + 0.5 * ((tgt - relu (preact x1 x2 s)) * relu_derivative (preact x1 x2 s) * x1),
          s.w2 + 0.5 * ((tgt - relu (preact x1 x2 s)) * relu_derivative (preact x1 x2 s) * x2),
          s.b + 0.5 * ((tgt - relu (preact x1 x2 s)) * relu_derivative (preact x1 x2 s))⟩ := by
  unfold epoch
  rw [if_neg h]
  rfl

end NN2

namespace NN3

variable {K : Type} [Zero K] [Add K] [Sub K] [Mul K] [OfScientific K] [LT K] [LE K]
  [DecidableRel (fun a b : K => a < b)] [DecidableRel (fun a b : K => a ≤ b)]

/-- Whatever the arithmetic, outside the dead condition an epoch leaves the parameters computed
in the order of the code: the error times the slope, times the input, and only then times the
learning rate. -/
theorem epoch_update_in_order_B (x1 x2 x3 tgt : K) (ep : Nat) (s : Params K)
    (h : ¬(preact x1 x2 x3 s ≤ 0 ∧ tgt > 0)) :
    (epoch x1 x2 x3 tgt ep s).1
      = ⟨s.w1 + 0.5 * ((tgt - relu (preact x1 x2 x3 s))
              * relu_derivative (preact x1 x2 x3 s) * x1),
          s.w2 + 0.5 * ((tgt - relu (preact x1 x2 x3 s))
              * relu_derivative (preact x1 x2 x3 s) * x2),
          s.w3 + 0.5 * ((tgt - relu (preact x1 x2 x3 s))
              * relu_derivative (preact x1 x2 x3 s) * x3),
          s.b + 0.5 * ((tgt - relu (preact x1 x2 x3 s))
              * relu_derivative (preact x1 x2 x3 s))⟩ := by
  unfold epoch
  rw [if_neg h]
  rfl

end NN3

/-! ## The update step in double arithmetic -/

namespace Double

theorem lit_eq (m : Nat) (s : Bool) (e : Nat) :
    (OfScientific.ofScientific m s e : Double)
      = ofExact (OfScientific.ofScientific m s e : ℚ) := rfl

theorem zero_eq : (0 : Double) = fin 0 := rfl

theorem fin_add (a b : ℚ) : fin a + fin b = ofExact (a + b) := rfl

theorem fin_sub (a b : ℚ) : fin a - fin b = ofExact (a - b) := by
  show ofExact (a + -b) = ofExact (a - b)
  rw [sub_eq_add_neg]

theorem fin_mul (a b : ℚ) : fin a * fin b = ofExact (a * b) := rfl

theorem fin_neg (a : ℚ) : -fin a = fin (-a) := rfl

theorem fin_mul_ninf (a : ℚ) : fin a * ninf = infTimes false a := rfl

theorem fin_add_ninf (a : ℚ) : fin a + ninf = ninf := rfl

theorem fin_lt (a b : ℚ) : fin a < fin b ↔ a < b := by
  show blt (fin a) (fin b) = true ↔ a < b
  simp [blt]

theorem fin_le (a b : ℚ) : fin a ≤ fin b ↔ a ≤ b := by
  show ble (fin a) (fin b) = true ↔ a ≤ b
  simp [ble]

end Double

